import Mathlib

/-!
Verification of the control-protocol core of a Go SDK that mediates between an
application and a long-lived external agent process.  The development shallowly
embeds the relevant Go functions (`internal/transport/subprocess.go`'s framing
loop, `internal/protocol/query.go`'s control-request correlation, dispatch and
hook machinery, and the message classifier) as executable Lean definitions and
proves the specified properties about them.
-/

namespace AgentSDK

/-- Model of a Go `any` (interface) value as produced in wire-message maps.
`encoding/json` decoding into `map[string]any` only ever produces `str`, `num`,
`bool`, `null`, `arr` and `obj` values; the `ptrStr` constructor models a Go
`*string` value, which can inhabit an `any` in general Go code but is never
produced by JSON decoding.  Numbers are modelled opaquely by `Int` (no claim
depends on numeric semantics). -/
inductive GoVal where
  | str : String → GoVal
  | num : Int → GoVal
  | bool : Bool → GoVal
  | null : GoVal
  | arr : List GoVal → GoVal
  | obj : List (String × GoVal) → GoVal
  | ptrStr : String → GoVal
deriving Repr, BEq

/-- A Go `map[string]any`, modelled as an association list of fields. -/
abbrev GoObj := List (String × GoVal)

/-- Field lookup in a Go map: `m[k]` (first binding wins). -/
def lookupField : GoObj → String → Option GoVal
  | [], _ => none
  | (k, v) :: rest, key => if k = key then some v else lookupField rest key

/-- Go type assertion `v.(string)` with ok-flag: succeeds only on a dynamic
`string`. -/
def asString? : Option GoVal → Option String
  | some (.str s) => some s
  | _ => none

/-- Go type assertion `v.(map[string]any)` with ok-flag. -/
def asObj? : Option GoVal → Option GoObj
  | some (.obj fs) => some fs
  | _ => none

/-- Go type assertion `v.([]any)` with ok-flag. -/
def asArr? : Option GoVal → Option (List GoVal)
  | some (.arr xs) => some xs
  | _ => none

/-- Go type assertion `v.(bool)` with ok-flag. -/
def asBool? : Option GoVal → Option Bool
  | some (.bool b) => some b
  | _ => none

/-- Go type assertion `v.(*string)` with ok-flag: succeeds only when the
dynamic type is `*string`, never on a plain `string`. -/
def asPtrString? : Option GoVal → Option String
  | some (.ptrStr s) => some s
  | _ => none

/-- Go two-valued assertion with the zero value on failure:
`s, _ := m[k].(string)` (source helper `getString`). -/
def getString (m : GoObj) (key : String) : String :=
  (asString? (lookupField m key)).getD ""

/-- Source helper `getMap`: `m[k].(map[string]any)` or nil. -/
def getMap (m : GoObj) (key : String) : Option GoObj :=
  asObj? (lookupField m key)

/-- Source helper `getBool`: `m[k].(bool)` or false. -/
def getBool (m : GoObj) (key : String) : Bool :=
  (asBool? (lookupField m key)).getD false

end AgentSDK

namespace AgentSDK.Framer

/-!
The framing loop of `SubprocessTransport.ReadMessages`
(`internal/transport/subprocess.go`): each scanned physical line is trimmed,
skipped when blank, appended to an accumulating buffer; when the buffer
exceeds `maxBufferSize` a decode error is emitted and the buffer reset;
otherwise the buffer is offered to the JSON decoder, emitting the decoded
object (and resetting) on success and continuing to accumulate on failure.
The JSON decoder itself is Go's `encoding/json.Unmarshal`, external to this
repository, so it is a parameter `decode` of the model.
-/

/-- Go `strings.TrimSpace`: remove leading and trailing whitespace (modelled
on the character list so that it evaluates by kernel reduction). -/
def trimSpace (s : String) : String :=
  ⟨((s.data.dropWhile Char.isWhitespace).reverse.dropWhile Char.isWhitespace).reverse⟩

/-- One output of the framing loop: a decoded message sent on `msgChan`, or a
`CLIJSONDecodeError` sent on `errChan`. -/
inductive FrameOut where
  | msg : AgentSDK.GoVal → FrameOut
  | decodeErr : String → FrameOut
deriving Repr, BEq

/-- Body of the scan loop for one physical line, acting on the current
`jsonBuffer` contents and producing the emitted outputs.  The scanner only
ever delivers lines of at most `maxBufferSize` bytes to this body
(`scanner.Buffer(make([]byte, maxBufferSize), maxBufferSize)`,
subprocess.go 547); that cap is enforced in `runFramer`. -/
def processLine (decode : String → Option AgentSDK.GoVal) (maxBufferSize : Nat)
    (buffer : String) (rawLine : String) : String × List FrameOut :=
  let line := trimSpace rawLine
  if line = "" then
    (buffer, [])
  else
    let buf := buffer ++ line
    if buf.utf8ByteSize > maxBufferSize then
      ("", [FrameOut.decodeErr
        ("Buffer size " ++ toString buf.utf8ByteSize ++ " exceeds limit " ++
          toString maxBufferSize)])
    else
      match decode buf with
      | none => (buf, [])
      | some v => ("", [FrameOut.msg v])

/-- The scan loop over the physical lines of the stream, threading the buffer
and collecting emitted outputs in order.  `bufio.Scanner` is configured with
a maximum token size of `maxBufferSize`
(`scanner.Buffer(make([]byte, maxBufferSize), maxBufferSize)`, subprocess.go
547): a physical line longer than that never reaches the loop body — `Scan`
fails with `ErrTooLong`, the loop ends and a fatal `CLIConnectionError`
("Error reading stdout") is emitted on the error channel instead.  The third
component reports whether the scan ended in that fatal error. -/
def runFramer (decode : String → Option AgentSDK.GoVal) (maxBufferSize : Nat)
    (buffer : String) : List String → String × List FrameOut × Bool
  | [] => (buffer, [], false)
  | l :: rest =>
    if l.utf8ByteSize > maxBufferSize then
      (buffer, [], true)
    else
      let (buf', out) := processLine decode maxBufferSize buffer l
      let (bufEnd, outs, fatal) := runFramer decode maxBufferSize buf' rest
      (bufEnd, out ++ outs, fatal)

/-- Concatenation of the trimmed forms of a list of lines: the contents the
buffer accumulates while none of them completes a JSON object. -/
def accumTrimmed : List String → String
  | [] => ""
  | l :: rest => trimSpace l ++ accumTrimmed rest

end AgentSDK.Framer

namespace AgentSDK.Classifier

open AgentSDK

/-!
The message classifier (`internal/protocol/message_parser.go`): `ParseMessage`
turns a decoded wire object into a typed `Message`, and `parseContentBlocks`
walks a `content` array classifying each block by its own `type` discriminator.
-/

/-- Typed content block (`types.ContentBlock` implementations). -/
inductive ContentBlock where
  | text : String → ContentBlock
  | thinking : String → String → ContentBlock
  | toolUse : String → String → Option GoObj → ContentBlock
  | toolResult : String → Option GoVal → Option Bool → ContentBlock
deriving Repr, BEq

/-- The dynamically-typed `Content` field of a `types.UserMessage`: a string, a
block list, or the raw value stored by the default branch (`none` when the
`content` key was absent). -/
inductive UserContent where
  | ofString : String → UserContent
  | ofBlocks : List ContentBlock → UserContent
  | ofRaw : Option GoVal → UserContent
deriving Repr, BEq

/-- Typed message (`types.Message` implementations), with the fields the
parsers populate. -/
inductive Message where
  | user : Option String → UserContent → Message
  | assistant : Option String → String → List ContentBlock → Message
  | system : String → GoObj → Message
  | result : String → String → Bool → Int → Int → Int → Option Int →
      Option GoObj → Option String → Option GoVal → Message
  | streamEvent : String → String → Option GoObj → Option String → Message
deriving Repr, BEq

/-- `parseContentBlocks`: classify each element of the raw `content` array by
its `type` discriminator, skipping non-map elements and unrecognized block
types.  (The Go function's error result is always nil.) -/
def parseContentBlocks : List GoVal → List ContentBlock
  | [] => []
  | raw :: rest =>
    match asObj? (some raw) with
    | none => parseContentBlocks rest
    | some blockData =>
      let blockType := getString blockData "type"
      if blockType = "text" then
        ContentBlock.text (getString blockData "text") :: parseContentBlocks rest
      else if blockType = "thinking" then
        ContentBlock.thinking (getString blockData "thinking")
            (getString blockData "signature") :: parseContentBlocks rest
      else if blockType = "tool_use" then
        ContentBlock.toolUse (getString blockData "id") (getString blockData "name")
            (asObj? (lookupField blockData "input")) :: parseContentBlocks rest
      else if blockType = "tool_result" then
        ContentBlock.toolResult (getString blockData "tool_use_id")
            (lookupField blockData "content")
            (asBool? (lookupField blockData "is_error")) :: parseContentBlocks rest
      else
        parseContentBlocks rest

/-- `parseUserMessage`. -/
def parseUserMessage (data : GoObj) : Except String Message :=
  let parentID := asString? (lookupField data "parent_tool_use_id")
  match asObj? (lookupField data "message") with
  | none => .error "Missing 'message' field in user message"
  | some messageData =>
    let content := lookupField messageData "content"
    match content with
    | some (.str c) => .ok (Message.user parentID (UserContent.ofString c))
    | some (.arr blocks) =>
        .ok (Message.user parentID (UserContent.ofBlocks (parseContentBlocks blocks)))
    | other => .ok (Message.user parentID (UserContent.ofRaw other))

/-- `parseAssistantMessage`. -/
def parseAssistantMessage (data : GoObj) : Except String Message :=
  let parentID := asString? (lookupField data "parent_tool_use_id")
  match asObj? (lookupField data "message") with
  | none => .error "Missing 'message' field in assistant message"
  | some messageData =>
    let model := getString messageData "model"
    match asArr? (lookupField messageData "content") with
    | none => .error "Missing 'content' field in assistant message"
    | some contentRaw =>
        .ok (Message.assistant parentID model (parseContentBlocks contentRaw))

/-- `parseSystemMessage`. -/
def parseSystemMessage (data : GoObj) : Except String Message :=
  match asString? (lookupField data "subtype") with
  | none => .error "Missing 'subtype' field in system message"
  | some subtype => .ok (Message.system subtype data)

/-- `parseResultMessage` (numeric JSON payloads modelled by `GoVal.num`; the
Go `int(...)` casts of decoded numbers are identities in this model). -/
def parseResultMessage (data : GoObj) : Except String Message :=
  let subtype := getString data "subtype"
  let sessionID := getString data "session_id"
  let isError := getBool data "is_error"
  let durationMS := match lookupField data "duration_ms" with
    | some (.num n) => n
    | _ => 0
  let durationAPIMS := match lookupField data "duration_api_ms" with
    | some (.num n) => n
    | _ => 0
  let numTurns := match lookupField data "num_turns" with
    | some (.num n) => n
    | _ => 0
  let totalCostUSD := match lookupField data "total_cost_usd" with
    | some (.num n) => some n
    | _ => none
  let usage := asObj? (lookupField data "usage")
  let result := asString? (lookupField data "result")
  let structuredOutput := lookupField data "structured_output"
  .ok (Message.result subtype sessionID isError durationMS durationAPIMS numTurns
    totalCostUSD usage result structuredOutput)

/-- `parseStreamEvent`. -/
def parseStreamEvent (data : GoObj) : Except String Message :=
  .ok (Message.streamEvent (getString data "uuid") (getString data "session_id")
    (asObj? (lookupField data "event"))
    (asString? (lookupField data "parent_tool_use_id")))

/-- `ParseMessage`: dispatch on the top-level `type` discriminator. -/
def ParseMessage (data : GoObj) : Except String Message :=
  match asString? (lookupField data "type") with
  | none => .error "Message missing 'type' field"
  | some msgType =>
    if msgType = "user" then parseUserMessage data
    else if msgType = "assistant" then parseAssistantMessage data
    else if msgType = "system" then parseSystemMessage data
    else if msgType = "result" then parseResultMessage data
    else if msgType = "stream_event" then parseStreamEvent data
    else .error ("Unknown message type: " ++ msgType)

end AgentSDK.Classifier

namespace AgentSDK.StrNat

/-!
Facts about `Nat.repr`, the Lean counterpart of Go's `fmt.Sprintf("%d", n)`,
needed to show that generated identifier strings (`hook_%d`, `req_%d_%s`) are
pairwise distinct.
-/

/-- Big-endian decimal digit characters of a natural number; the reference
specification for `Nat.toDigits 10`. -/
def decDigits (n : Nat) : List Char :=
  if h : n < 10 then [Nat.digitChar n]
  else decDigits (n / 10) ++ [Nat.digitChar (n % 10)]
termination_by n
decreasing_by exact Nat.div_lt_self (by omega) (by omega)

theorem toDigitsCore_eq_decDigits :
    ∀ (fuel n : Nat) (ds : List Char), n / 10 < fuel →
      Nat.toDigitsCore 10 fuel n ds = decDigits n ++ ds := by
  intro fuel
  induction fuel with
  | zero => intro n ds h; omega
  | succ f ih =>
    intro n ds h
    have hstep : Nat.toDigitsCore 10 (f + 1) n ds =
        if n / 10 = 0 then (n % 10).digitChar :: ds
        else Nat.toDigitsCore 10 f (n / 10) ((n % 10).digitChar :: ds) := rfl
    by_cases h0 : n / 10 = 0
    · have hn : n < 10 := by omega
      rw [hstep, if_pos h0, decDigits, dif_pos hn, Nat.mod_eq_of_lt hn]
      rfl
    · have hn : ¬ n < 10 := by omega
      have hrec : n / 10 / 10 < f := by
        have h1 : n / 10 / 10 < n / 10 := Nat.div_lt_self (by omega) (by omega)
        omega
      rw [hstep, if_neg h0, ih (n / 10) _ hrec]
      conv_rhs => rw [decDigits]
      rw [dif_neg hn, List.append_assoc]
      rfl

theorem repr_eq_decDigits (n : Nat) : Nat.repr n = (decDigits n).asString := by
  have h : n / 10 < n + 1 := by
    have := Nat.div_le_self n 10
    omega
  rw [Nat.repr, Nat.toDigits, toDigitsCore_eq_decDigits (n + 1) n [] h,
    List.append_nil]

/-- Decimal value of a digit-character list (left inverse of `decDigits`). -/
def digitsVal (cs : List Char) : Nat :=
  cs.foldl (fun a c => 10 * a + (c.toNat - 48)) 0

theorem digitsVal_append_singleton (cs : List Char) (c : Char) :
    digitsVal (cs ++ [c]) = 10 * digitsVal cs + (c.toNat - 48) := by
  simp [digitsVal, List.foldl_append]

theorem digitChar_toNat_of_lt (m : Nat) (h : m < 10) :
    (Nat.digitChar m).toNat = m + 48 := by
  interval_cases m <;> rfl

theorem digitsVal_decDigits (n : Nat) : digitsVal (decDigits n) = n := by
  induction n using decDigits.induct with
  | case1 n h =>
    rw [decDigits, dif_pos h]
    simp [digitsVal, digitChar_toNat_of_lt n h]
  | case2 n h ih =>
    rw [decDigits, dif_neg h, digitsVal_append_singleton, ih,
      digitChar_toNat_of_lt (n % 10) (Nat.mod_lt n (by omega))]
    omega

theorem decDigits_injective : Function.Injective decDigits := by
  intro a b h
  have := congrArg digitsVal h
  rwa [digitsVal_decDigits, digitsVal_decDigits] at this

theorem repr_injective : Function.Injective Nat.repr := by
  intro a b h
  rw [repr_eq_decDigits, repr_eq_decDigits] at h
  exact decDigits_injective (congrArg String.data h)

theorem digitChar_ne_underscore (m : Nat) (h : m < 10) :
    Nat.digitChar m ≠ '_' := by
  interval_cases m <;> decide

theorem decDigits_ne_underscore (n : Nat) : ∀ c ∈ decDigits n, c ≠ '_' := by
  induction n using decDigits.induct with
  | case1 n h =>
    rw [decDigits, dif_pos h]
    intro c hc
    rw [List.mem_singleton] at hc
    subst hc
    exact digitChar_ne_underscore n h
  | case2 n h ih =>
    rw [decDigits, dif_neg h]
    intro c hc
    rcases List.mem_append.mp hc with h1 | h1
    · exact ih c h1
    · rw [List.mem_singleton] at h1
      subst h1
      exact digitChar_ne_underscore (n % 10) (Nat.mod_lt n (by omega))

theorem split_at_underscore :
    ∀ (as bs xs ys : List Char), (∀ c ∈ as, c ≠ '_') → (∀ c ∈ bs, c ≠ '_') →
      as ++ '_' :: xs = bs ++ '_' :: ys → as = bs ∧ xs = ys := by
  intro as
  induction as with
  | nil =>
    intro bs xs ys _ hb h
    cases bs with
    | nil => simpa using h
    | cons b bs' =>
      simp only [List.nil_append, List.cons_append, List.cons.injEq] at h
      exact absurd h.1.symm (hb b (List.mem_cons_self b bs'))
  | cons a as' ih =>
    intro bs xs ys ha hb h
    cases bs with
    | nil =>
      simp only [List.cons_append, List.nil_append, List.cons.injEq] at h
      exact absurd h.1 (ha a (List.mem_cons_self a as'))
    | cons b bs' =>
      simp only [List.cons_append, List.cons.injEq] at h
      obtain ⟨rfl, h2⟩ := h
      obtain ⟨h3, h4⟩ := ih bs' xs ys
        (fun c hc => ha c (List.mem_cons_of_mem a hc))
        (fun c hc => hb c (List.mem_cons_of_mem a hc)) h2
      exact ⟨by rw [h3], h4⟩

end AgentSDK.StrNat

namespace AgentSDK.Protocol

open AgentSDK

/-!
The control-protocol engine of `internal/protocol/query.go`: the pending
outbound-request map, the reader loop's routing switch, control-response
correlation, caller-side waiting, and `Close`.
-/

/-- `ControlResult` (query.go): result of a control request as delivered on a
pending request's channel.  `ok` carries the `Response` field, which is the
`response["response"]` map (nil — `none` — when the type assertion failed). -/
inductive ControlResult where
  | ok : Option GoObj → ControlResult
  | err : String → ControlResult
deriving Repr, BEq

/-- Error values of the SDK `errors` package that the engine produces. -/
inductive SdkErr where
  | timeoutError : String → SdkErr
  | connectionError : String → SdkErr
  | sdkError : String → SdkErr
deriving Repr, BEq

/-- Per-connection engine state: the keys of `pendingResponses`, the buffer
contents of every response channel ever created (each `make(chan, 1)`), the
`firstResultEvent` flag, and the `closed` flag. -/
structure QState where
  pendingIDs : List String
  chans : List (String × List ControlResult)
  firstResult : Bool
  closed : Bool
deriving Repr

/-- Initial state of a fresh `Query` (`NewQuery`). -/
def initQState : QState :=
  { pendingIDs := [], chans := [], firstResult := false, closed := false }

/-- Generic association-list lookup (first binding wins), the model of a Go
map read. -/
def lookupKey {α : Type} : List (String × α) → String → Option α
  | [], _ => none
  | (k, v) :: rest, key => if k = key then some v else lookupKey rest key

/-- Contents of the response channel registered for `id` (empty when no such
channel exists). -/
def chanBufOf (st : QState) (id : String) : List ControlResult :=
  (lookupKey st.chans id).getD []

/-- Append a result to the buffer of the (first) channel registered at `id`:
the channel send `ch <- result`. -/
def appendChan : List (String × List ControlResult) → String → ControlResult →
    List (String × List ControlResult)
  | [], _, _ => []
  | (k, buf) :: rest, id, r =>
    if k = id then (k, buf ++ [r]) :: rest else (k, buf) :: appendChan rest id r

/-- `sendControlRequest` lines 477–481: create a fresh response channel of
capacity one and register it in `pendingResponses` under the generated id. -/
def registerPending (st : QState) (id : String) : QState :=
  { st with
    pendingIDs := if id ∈ st.pendingIDs then st.pendingIDs else id :: st.pendingIDs,
    chans := (id, []) :: st.chans }

/-- Result computed by `handleControlResponse` from the nested response
payload: an `error` subtype carries the error string, anything else carries
the (possibly nil) response map. -/
def responseResult (response : GoObj) : ControlResult :=
  if getString response "subtype" = "error" then
    ControlResult.err (getString response "error")
  else
    ControlResult.ok (asObj? (lookupField response "response"))

/-- The nested response payload of a `control_response` wire object (a failed
map assertion yields the nil map). -/
def responsePayload (msg : GoObj) : GoObj :=
  (asObj? (lookupField msg "response")).getD []

/-- `handleControlResponse`: extract the correlation id from the nested
response payload; look up and remove the matching pending entry; if found,
deliver the `{payload|error}` result on its channel; if not found, ignore.
Returns the delivery made, if any. -/
def handleControlResponse (st : QState) (msg : GoObj) :
    QState × Option (String × ControlResult) :=
  let response := responsePayload msg
  let requestID := getString response "request_id"
  if requestID ∈ st.pendingIDs then
    let result := responseResult response
    ({ st with
        pendingIDs := st.pendingIDs.erase requestID,
        chans := appendChan st.chans requestID result },
      some (requestID, result))
  else
    (st, none)

/-- The routing switch of the reader loop (`readMessages` lines 239–270) for a
single decoded object: control responses are correlated, control requests are
dispatched on their own goroutine (their responses are modelled separately),
cancel requests are a no-op, a `result` message fires the first-result event,
and every non-control message is forwarded to the consumer channel.  Returns
the new state, the control-response delivery (if any), and the forwarded
message (if any). -/
def processMsg (st : QState) (msg : GoObj) :
    QState × Option (String × ControlResult) × Option GoObj :=
  let msgType := getString msg "type"
  if msgType = "control_response" then
    let (st', d) := handleControlResponse st msg
    (st', d, none)
  else if msgType = "control_request" then
    (st, none, none)
  else if msgType = "control_cancel_request" then
    (st, none, none)
  else if msgType = "result" then
    ({ st with firstResult := true }, none, some msg)
  else
    (st, none, some msg)

/-- The reader loop over a sequence of decoded objects from the transport,
with the `q.closed.Load()` early return, collecting the messages forwarded to
the consumer channel in order. -/
def readLoop (st : QState) : List GoObj → QState × List GoObj
  | [] => (st, [])
  | m :: rest =>
    if st.closed then (st, [])
    else
      let (st', _, fwd) := processMsg st m
      let (stEnd, outs) := readLoop st' rest
      (stEnd, fwd.toList ++ outs)

/-- True of a wire object of control-envelope type (never forwarded to the
consumer). -/
def isControlEnvelope (msg : GoObj) : Bool :=
  let t := getString msg "type"
  t = "control_response" || t = "control_request" || t = "control_cancel_request"

/-- Events acting on the engine state while the reader is running: a caller
registering an outbound request, the reader processing a decoded inbound
object, a caller's context expiring during its wait, and `Close`.  The
transport-error branch of `readMessages` (lines 212–229) is terminal for the
reader — after broadcasting the error it returns, so no further inbound
object is ever processed — and is therefore modelled separately as
`broadcastTransportErr` rather than as an event of the ongoing trace. -/
inductive QEvent where
  | register : String → QEvent
  | inbound : GoObj → QEvent
  | ctxDone : String → QEvent
  | close : QEvent

/-- One engine step; returns the control-response delivery made, if any.  An
inbound object is dropped once the connection is closed (the reader has
returned). -/
def applyEvent (st : QState) : QEvent → QState × Option (String × ControlResult)
  | .register id => (registerPending st id, none)
  | .inbound m =>
    if st.closed then (st, none)
    else
      let (st', d, _) := processMsg st m
      (st', d)
  | .ctxDone id => ({ st with pendingIDs := st.pendingIDs.erase id }, none)
  | .close => ({ st with closed := true }, none)

/-- Run a sequence of engine events from a state. -/
def runTrace (st : QState) : List QEvent → QState
  | [] => st
  | e :: rest => runTrace (applyEvent st e).1 rest

/-- `sendControlRequest`'s request-id generation (lines 472–475):
`fmt.Sprintf("req_%d_%s", counter, hex.EncodeToString(randBytes))`. -/
def mkRequestID (counter : Nat) (randHex : String) : String :=
  "req_" ++ Nat.repr counter ++ "_" ++ randHex

/-- The caller's tail of `sendControlRequest` (lines 513–517) on receiving a
result from its channel: an error result propagates, a success result returns
the payload. -/
def callerReturn : ControlResult → Except SdkErr (Option GoObj)
  | .err e => .error (.sdkError e)
  | .ok resp => .ok resp

/-- The caller's `ctx.Done()` branch of `sendControlRequest` (lines 506–511):
deregister the pending entry and return a timeout error naming the request
subtype. -/
def sendCtxDone (st : QState) (requestID : String) (subtype : String) :
    QState × Except SdkErr (Option GoObj) :=
  ({ st with pendingIDs := st.pendingIDs.erase requestID },
   .error (.timeoutError ("control request: " ++ subtype)))

/-- `Close` (lines 557–561): store the closed flag, cancel the reader's
context and close the transport.  Returns the list of results it delivers to
pending response channels — which is empty: `Close` touches neither
`pendingResponses` nor any response channel. -/
def closeQuery (st : QState) : QState × List (String × ControlResult) :=
  ({ st with closed := true }, [])

/-- A non-blocking send on the capacity-one channel registered at `id`
(`select { case ch <- ...: default: }`): delivers only when the buffer has
room, otherwise drops. -/
def sendNonBlocking (chans : List (String × List ControlResult)) (id : String)
    (r : ControlResult) : List (String × List ControlResult) :=
  if ((lookupKey chans id).getD []).length < 1 then appendChan chans id r
  else chans

/-- The loop of the transport-error branch over the pending table: one
non-blocking error send per pending entry (in some map-iteration order). -/
def broadcastAux (e : String) :
    List (String × List ControlResult) → List String →
      List (String × List ControlResult)
  | chans, [] => chans
  | chans, id :: rest =>
    broadcastAux e (sendNonBlocking chans id (ControlResult.err e)) rest

/-- The transport-error branch of `readMessages` (lines 212–229): on a
transport error the reader — racing with its own cancelled context, and
without checking the closed flag — delivers the error non-blockingly to
every pending response channel without removing the entries, propagates the
error, and returns.  This is the only path that resolves pending outbound
requests with a connection-level error; `Close` itself never does. -/
def broadcastTransportErr (st : QState) (e : String) : QState :=
  { st with chans := broadcastAux e st.chans st.pendingIDs }

/-- The wire shape of a successful control response correlated to `id`
carrying payload `p` (spec §6; mirrors the envelope built by
`handleControlRequest` lines 336–344). -/
def successResponseMsg (id : String) (p : GoObj) : GoObj :=
  [("type", GoVal.str "control_response"),
   ("response", GoVal.obj
     [("subtype", GoVal.str "success"),
      ("request_id", GoVal.str id),
      ("response", GoVal.obj p)])]

/-- Engine invariant along real executions: the pending ids are distinct,
every currently-pending id has a registered channel whose buffer is empty,
and no channel buffer ever holds more than one result. -/
def ChanInv (st : QState) : Prop :=
  st.pendingIDs.Nodup ∧
  (∀ id ∈ st.pendingIDs, lookupKey st.chans id = some []) ∧
  (∀ e ∈ st.chans, (e.2 : List ControlResult).length ≤ 1)

end AgentSDK.Protocol

namespace AgentSDK.Permission

open AgentSDK

/-!
The inbound `can_use_tool` handler (`handleToolPermission`, query.go lines
351–410) and the control-response envelope written back by
`handleControlRequest` (lines 325–347).
-/

/-- `types.PermissionRuleValue`. -/
structure PermissionRuleValue where
  toolName : String
  ruleContent : Option String
deriving Repr, BEq

/-- `types.PermissionUpdate` (the `Type` field is the update-type string). -/
structure PermissionUpdate where
  updateType : String
  rules : Option (List PermissionRuleValue)
  behavior : Option String
  mode : Option String
  directories : Option (List String)
  destination : Option String
deriving Repr, BEq

/-- `PermissionUpdate.ToMap`. -/
def PermissionUpdate.ToMap (p : PermissionUpdate) : GoObj :=
  let result := [("type", GoVal.str p.updateType)]
  let result := result ++
    (match p.destination with
     | some d => [("destination", GoVal.str d)]
     | none => [])
  if p.updateType = "addRules" ∨ p.updateType = "replaceRules" ∨
      p.updateType = "removeRules" then
    let result := result ++
      (match p.rules with
       | some rs => [("rules", GoVal.arr (rs.map (fun r =>
           GoVal.obj ([("toolName", GoVal.str r.toolName)] ++
             (match r.ruleContent with
              | some rc => [("ruleContent", GoVal.str rc)]
              | none => [])))))]
       | none => [])
    result ++
      (match p.behavior with
       | some b => [("behavior", GoVal.str b)]
       | none => [])
  else if p.updateType = "setMode" then
    result ++
      (match p.mode with
       | some m => [("mode", GoVal.str m)]
       | none => [])
  else if p.updateType = "addDirectories" ∨ p.updateType = "removeDirectories" then
    result ++
      (match p.directories with
       | some ds => [("directories", GoVal.arr (ds.map GoVal.str))]
       | none => [])
  else
    result

/-- `types.PermissionResult`: the closed set of implementations
(`PermissionResultAllow`, `PermissionResultDeny`). -/
inductive PermissionResult where
  | allow : Option GoObj → Option (List PermissionUpdate) → PermissionResult
  | deny : String → Bool → PermissionResult

/-- A registered `CanUseToolCallback`, modelled on its data:
tool name, proposed input (nil map possible) and converted suggestions, to a
permission result or a Go error. -/
abbrev CanUseToolFn :=
  String → Option GoObj → List PermissionUpdate → Except String PermissionResult

/-- Conversion of `permission_suggestions` entries (lines 364–371): non-map
entries are skipped; a map entry has its `type` field asserted to `string`
without an ok-check, so a map entry whose `type` is not a string panics the
handler goroutine (modelled as `none`). -/
def convertSuggestions : List GoVal → Option (List PermissionUpdate)
  | [] => some []
  | s :: rest =>
    match asObj? (some s) with
    | none => convertSuggestions rest
    | some sMap =>
      match asString? (lookupField sMap "type") with
      | none => none
      | some t =>
        (convertSuggestions rest).map
          (fun us => { updateType := t, rules := none, behavior := none,
                       mode := none, directories := none, destination := none } :: us)

/-- `handleToolPermission`: a missing callback is an error; otherwise the
callback decides, and the response map is built — an allow decision with no
modified input echoes the original request input into `updatedInput` (a nil
input map is serialized as JSON null).  `none` models a handler panic (the
unchecked suggestion assertion); the Go switch's default branch is
unreachable here because `PermissionResult` is the closed set of the two
implementations. -/
def handleToolPermission (canUseTool : Option CanUseToolFn) (request : GoObj) :
    Option (Except String GoObj) :=
  match canUseTool with
  | none => some (.error "canUseTool callback is not provided")
  | some cb =>
    let toolName := getString request "tool_name"
    let input := asObj? (lookupField request "input")
    let suggestions := (asArr? (lookupField request "permission_suggestions")).getD []
    match convertSuggestions suggestions with
    | none => none
    | some permUpdates =>
      match cb toolName input permUpdates with
      | .error e => some (.error e)
      | .ok (.allow updatedInput updatedPerms) =>
        let responseData := [("behavior", GoVal.str "allow")]
        let responseData := responseData ++
          [("updatedInput",
            match updatedInput with
            | some u => GoVal.obj u
            | none =>
              match input with
              | some i => GoVal.obj i
              | none => GoVal.null)]
        let responseData :=
          match updatedPerms with
          | some ps => responseData ++
              [("updatedPermissions", GoVal.arr (ps.map (fun p => GoVal.obj p.ToMap)))]
          | none => responseData
        some (.ok responseData)
      | .ok (.deny message intr) =>
        some (.ok ([("behavior", GoVal.str "deny"), ("message", GoVal.str message)] ++
          (if intr then [("interrupt", GoVal.bool true)] else [])))

/-- The control-response envelope written back by `handleControlRequest`
(lines 325–344): an error becomes an `error`-subtype response, a success
wraps the handler's response data. -/
def controlResponseEnvelope (requestID : String) (result : Except String GoObj) :
    GoObj :=
  match result with
  | .error e =>
    [("type", GoVal.str "control_response"),
     ("response", GoVal.obj
       [("subtype", GoVal.str "error"),
        ("request_id", GoVal.str requestID),
        ("error", GoVal.str e)])]
  | .ok responseData =>
    [("type", GoVal.str "control_response"),
     ("response", GoVal.obj
       [("subtype", GoVal.str "success"),
        ("request_id", GoVal.str requestID),
        ("response", GoVal.obj responseData)])]

/-- End-to-end handling of one inbound `can_use_tool` control request: run the
handler and wrap its outcome in the response envelope (`none` when the
handler goroutine panicked and no response is written). -/
def dispatchCanUseTool (canUseTool : Option CanUseToolFn) (requestID : String)
    (request : GoObj) : Option GoObj :=
  (handleToolPermission canUseTool request).map (controlResponseEnvelope requestID)

end AgentSDK.Permission

namespace AgentSDK.Hooks

open AgentSDK

/-!
Hook registration (`NewQuery`, query.go lines 123–142) and the inbound
`hook_callback` handler (`handleHookCallback`, lines 413–440, with
`parseHookInput`, lines 667–737).  Callback functions are opaque values of a
type parameter `κ`.
-/

/-- A hook event name (`types.HookEvent`). -/
abbrev HookEvent := String

/-- `types.HookMatcher`: user configuration for one matcher (the numeric
timeout payload is carried opaquely). -/
structure HookMatcher (κ : Type) where
  matcher : Option String
  hooks : List κ
  timeout : Option Int

/-- `HookMatcherInternal`: the callables replaced by their assigned ids. -/
structure HookMatcherInternal where
  matcher : Option String
  callbackIDs : List String
  timeout : Option Int
deriving Repr, BEq

/-- Callback-id generation: `fmt.Sprintf("hook_%d", ...)` on the next counter
value. -/
def mkHookID (n : Nat) : String := "hook_" ++ Nat.repr n

/-- The ids `mkHookID next, mkHookID (next+1), ...` (`len` of them). -/
def idsFrom : Nat → Nat → List String
  | _, 0 => []
  | next, len + 1 => mkHookID next :: idsFrom (next + 1) len

/-- Registration of the callbacks of one matcher (inner loop of `NewQuery`):
each callback gets the next id and is stored in the flat lookup table;
returns the advanced counter, the extended table, and the id list recorded in
the internal matcher. -/
def registerCallbacks {κ : Type} (next : Nat) (tbl : List (String × κ)) :
    List κ → Nat × List (String × κ) × List String
  | [] => (next, tbl, [])
  | cb :: rest =>
    let id := mkHookID next
    let (n', tbl', ids) := registerCallbacks (next + 1) (tbl ++ [(id, cb)]) rest
    (n', tbl', id :: ids)

/-- The matcher loop of `NewQuery` for one event. -/
def buildMatchers {κ : Type} (next : Nat) (tbl : List (String × κ)) :
    List (HookMatcher κ) → Nat × List (String × κ) × List HookMatcherInternal
  | [] => (next, tbl, [])
  | m :: rest =>
    let (n1, t1, ids) := registerCallbacks next tbl m.hooks
    let (n2, t2, ms) := buildMatchers n1 t1 rest
    (n2, t2, { matcher := m.matcher, callbackIDs := ids, timeout := m.timeout } :: ms)

/-- The event loop of `NewQuery` over the whole hook configuration (given in
some map-iteration order). -/
def buildEvents {κ : Type} (next : Nat) (tbl : List (String × κ)) :
    List (HookEvent × List (HookMatcher κ)) →
      Nat × List (String × κ) × List (HookEvent × List HookMatcherInternal)
  | [] => (next, tbl, [])
  | (ev, ms) :: rest =>
    let (n1, t1, ims) := buildMatchers next tbl ms
    let (n2, t2, evs) := buildEvents n1 t1 rest
    (n2, t2, (ev, ims) :: evs)

/-- Hook registration at construction: counter starts at 0, table starts
empty. -/
def buildHooks {κ : Type} (cfg : List (HookEvent × List (HookMatcher κ))) :
    Nat × List (String × κ) × List (HookEvent × List HookMatcherInternal) :=
  buildEvents 0 [] cfg

/-- Number of callbacks in a matcher list. -/
def matcherHooksCount {κ : Type} : List (HookMatcher κ) → Nat
  | [] => 0
  | m :: rest => m.hooks.length + matcherHooksCount rest

/-- Number of callbacks in a whole configuration. -/
def cfgHooksCount {κ : Type} : List (HookEvent × List (HookMatcher κ)) → Nat
  | [] => 0
  | (_, ms) :: rest => matcherHooksCount ms + cfgHooksCount rest

/-- All callbacks of a matcher list, in registration order. -/
def matcherCallbacks {κ : Type} : List (HookMatcher κ) → List κ
  | [] => []
  | m :: rest => m.hooks ++ matcherCallbacks rest

/-- All callbacks of a configuration, in registration order. -/
def cfgCallbacks {κ : Type} : List (HookEvent × List (HookMatcher κ)) → List κ
  | [] => []
  | (_, ms) :: rest => matcherCallbacks ms ++ cfgCallbacks rest

/-- `types.BaseHookInput`. -/
structure BaseHookInput where
  sessionID : String
  transcriptPath : String
  cwd : String
  permissionMode : Option String
deriving Repr, BEq

/-- `types.HookInput`: the closed set of event-specific hook inputs. -/
inductive HookInput where
  | preToolUse : BaseHookInput → String → Option GoObj → HookInput
  | postToolUse : BaseHookInput → String → Option GoObj → Option GoVal → HookInput
  | userPromptSubmit : BaseHookInput → String → HookInput
  | stopInput : BaseHookInput → Bool → HookInput
  | subagentStop : BaseHookInput → Bool → HookInput
  | preCompact : BaseHookInput → String → Option String → HookInput
deriving Repr, BEq

/-- `parseHookInput`: convert the raw `input` value to a typed `HookInput` by
its `hook_event_name`. -/
def parseHookInput (input : Option GoVal) : Except String HookInput :=
  match asObj? input with
  | none => .error "invalid hook input format"
  | some data =>
    let base : BaseHookInput :=
      { sessionID := getString data "session_id",
        transcriptPath := getString data "transcript_path",
        cwd := getString data "cwd",
        permissionMode := asString? (lookupField data "permission_mode") }
    let eventName := getString data "hook_event_name"
    if eventName = "PreToolUse" then
      .ok (.preToolUse base (getString data "tool_name") (getMap data "tool_input"))
    else if eventName = "PostToolUse" then
      .ok (.postToolUse base (getString data "tool_name") (getMap data "tool_input")
        (lookupField data "tool_response"))
    else if eventName = "UserPromptSubmit" then
      .ok (.userPromptSubmit base (getString data "prompt"))
    else if eventName = "Stop" then
      .ok (.stopInput base (getBool data "stop_hook_active"))
    else if eventName = "SubagentStop" then
      .ok (.subagentStop base (getBool data "stop_hook_active"))
    else if eventName = "PreCompact" then
      .ok (.preCompact base (getString data "trigger")
        (asString? (lookupField data "custom_instructions")))
    else
      .error ("unknown hook event: " ++ eventName)

/-- The arguments with which `handleHookCallback` invokes the resolved
callback. -/
structure HookInvocation (κ : Type) where
  callback : κ
  input : HookInput
  toolUseID : Option String
deriving Repr

/-- `handleHookCallback` up to the callback call: extract `callback_id`, the
raw `input`, and `tool_use_id` — the latter via the type assertion
`request["tool_use_id"].(*string)`, which only succeeds on a dynamic
`*string` — resolve the callback id in the lookup table (an unknown id is an
error for this single request), parse the hook input, and return the
invocation that is performed. -/
def handleHookCallback {κ : Type} (hookCallbacks : List (String × κ))
    (request : GoObj) : Except String (HookInvocation κ) :=
  let callbackID := getString request "callback_id"
  let input := lookupField request "input"
  let toolUseID := asPtrString? (lookupField request "tool_use_id")
  match Protocol.lookupKey hookCallbacks callbackID with
  | none => .error ("no hook callback found for ID: " ++ callbackID)
  | some cb =>
    match parseHookInput input with
    | .error e => .error e
    | .ok hi => .ok { callback := cb, input := hi, toolUseID := toolUseID }

end AgentSDK.Hooks

namespace AgentSDK.Protocol

theorem handleControlResponse_closed (st : QState) (m : GoObj) :
    (handleControlResponse st m).1.closed = st.closed := by
  unfold handleControlResponse
  dsimp only
  split <;> rfl

theorem processMsg_closed (st : QState) (m : GoObj) :
    (processMsg st m).1.closed = st.closed := by
  unfold processMsg
  dsimp only
  repeat' split
  all_goals first
    | rfl
    | exact handleControlResponse_closed st m

theorem processMsg_fwd (st : QState) (m : GoObj) :
    (processMsg st m).2.2 = if isControlEnvelope m then none else some m := by
  unfold processMsg isControlEnvelope
  dsimp only
  repeat' split
  all_goals simp_all

theorem readLoop_out_eq_filter :
    ∀ (msgs : List GoObj) (st : QState), st.closed = false →
      (readLoop st msgs).2 = msgs.filter (fun m => !isControlEnvelope m) := by
  intro msgs
  induction msgs with
  | nil => intro st h; rfl
  | cons m rest ih =>
    intro st h
    unfold readLoop
    rw [if_neg (by rw [h]; exact Bool.false_ne_true)]
    dsimp only
    have hclosed : (processMsg st m).1.closed = false := by
      rw [processMsg_closed, h]
    rw [ih (processMsg st m).1 hclosed]
    rw [List.filter_cons]
    by_cases hc : isControlEnvelope m
    · rw [processMsg_fwd, if_pos hc]
      simp [hc]
    · rw [processMsg_fwd, if_neg hc]
      simp [hc]

end AgentSDK.Protocol

namespace AgentSDK.Framer

theorem runFramer_cons (decode : String → Option AgentSDK.GoVal)
    (maxBufferSize : Nat) (buffer l : String) (rest : List String)
    (hle : ¬ l.utf8ByteSize > maxBufferSize) :
    runFramer decode maxBufferSize buffer (l :: rest) =
      ((runFramer decode maxBufferSize
          (processLine decode maxBufferSize buffer l).1 rest).1,
        (processLine decode maxBufferSize buffer l).2 ++
          (runFramer decode maxBufferSize
            (processLine decode maxBufferSize buffer l).1 rest).2.1,
        (runFramer decode maxBufferSize
          (processLine decode maxBufferSize buffer l).1 rest).2.2) := by
  conv_lhs => rw [runFramer]
  rw [if_neg hle]

theorem runFramer_fatal (decode : String → Option AgentSDK.GoVal)
    (maxBufferSize : Nat) (buffer l : String) (rest : List String)
    (hgt : l.utf8ByteSize > maxBufferSize) :
    runFramer decode maxBufferSize buffer (l :: rest) = (buffer, [], true) := by
  conv_lhs => rw [runFramer]
  rw [if_pos hgt]

theorem processLine_ok (decode : String → Option AgentSDK.GoVal)
    (maxBufferSize : Nat) (buffer l : String)
    (hl : trimSpace l ≠ "")
    (hsz : ¬ (buffer ++ trimSpace l).utf8ByteSize > maxBufferSize) :
    processLine decode maxBufferSize buffer l =
      match decode (buffer ++ trimSpace l) with
      | none => (buffer ++ trimSpace l, [])
      | some v => ("", [FrameOut.msg v]) := by
  unfold processLine
  rw [if_neg hl]
  dsimp only
  rw [if_neg hsz]

theorem processLine_overflow (decode : String → Option AgentSDK.GoVal)
    (maxBufferSize : Nat) (buffer l : String)
    (hl : trimSpace l ≠ "")
    (hsz : (buffer ++ trimSpace l).utf8ByteSize > maxBufferSize) :
    processLine decode maxBufferSize buffer l =
      ("", [FrameOut.decodeErr
        ("Buffer size " ++ toString (buffer ++ trimSpace l).utf8ByteSize ++
          " exceeds limit " ++ toString maxBufferSize)]) := by
  unfold processLine
  rw [if_neg hl]
  dsimp only
  rw [if_pos hsz]

theorem runFramer_assembles (decode : String → Option AgentSDK.GoVal)
    (maxBufferSize : Nat) :
    ∀ (lines : List String) (buffer : String) (v : AgentSDK.GoVal),
      lines ≠ [] →
      (∀ l ∈ lines, l.utf8ByteSize ≤ maxBufferSize) →
      (∀ l ∈ lines, trimSpace l ≠ "") →
      (∀ k, 0 < k → k < lines.length →
        decode (buffer ++ accumTrimmed (lines.take k)) = none) →
      (∀ k, 0 < k → k ≤ lines.length →
        (buffer ++ accumTrimmed (lines.take k)).utf8ByteSize ≤ maxBufferSize) →
      decode (buffer ++ accumTrimmed lines) = some v →
      runFramer decode maxBufferSize buffer lines = ("", [FrameOut.msg v], false) := by
  intro lines
  induction lines with
  | nil => intro buffer v hne; exact absurd rfl hne
  | cons l rest ih =>
    intro buffer v _ hadm htrim hpre hsz hfull
    have hladm : ¬ l.utf8ByteSize > maxBufferSize := by
      have := hadm l (List.mem_cons_self l rest)
      omega
    have hltrim : trimSpace l ≠ "" := htrim l (List.mem_cons_self l rest)
    have hbuf1 : buffer ++ accumTrimmed [l] = buffer ++ trimSpace l := by
      simp [accumTrimmed, String.append_empty]
    cases rest with
    | nil =>
      have hsz1 : (buffer ++ trimSpace l).utf8ByteSize ≤ maxBufferSize := by
        have := hsz 1 (by omega) (by simp)
        rwa [List.take_succ_cons, List.take_zero, hbuf1] at this
      have hdec : decode (buffer ++ trimSpace l) = some v := by
        rwa [show accumTrimmed [l] = trimSpace l ++ accumTrimmed [] from rfl,
          show accumTrimmed ([] : List String) = "" from rfl,
          String.append_empty] at hfull
      rw [runFramer_cons decode maxBufferSize buffer l [] hladm,
        processLine_ok decode maxBufferSize buffer l hltrim (by omega), hdec]
      rfl
    | cons l2 rest2 =>
      have hsz1 : (buffer ++ trimSpace l).utf8ByteSize ≤ maxBufferSize := by
        have := hsz 1 (by omega) (by simp)
        rwa [List.take_succ_cons, List.take_zero, hbuf1] at this
      have hdec1 : decode (buffer ++ trimSpace l) = none := by
        have := hpre 1 (by omega) (by simp)
        rwa [List.take_succ_cons, List.take_zero, hbuf1] at this
      have hstep : ∀ xs, buffer ++ accumTrimmed (l :: xs)
          = (buffer ++ trimSpace l) ++ accumTrimmed xs := by
        intro xs
        rw [show accumTrimmed (l :: xs) = trimSpace l ++ accumTrimmed xs from rfl,
          String.append_assoc]
      have ihres := ih (buffer ++ trimSpace l) v (by simp)
        (fun x hx => hadm x (List.mem_cons_of_mem l hx))
        (fun x hx => htrim x (List.mem_cons_of_mem l hx))
        (fun k hk1 hk2 => by
          have := hpre (k + 1) (by omega) (by simpa using hk2)
          rwa [List.take_succ_cons, hstep] at this)
        (fun k hk1 hk2 => by
          have := hsz (k + 1) (by omega) (by simpa using hk2)
          rwa [List.take_succ_cons, hstep] at this)
        (by rw [← hstep]; exact hfull)
      rw [runFramer_cons decode maxBufferSize buffer l (l2 :: rest2) hladm,
        processLine_ok decode maxBufferSize buffer l hltrim (by omega), hdec1]
      dsimp only
      rw [ihres]
      rfl

theorem runFramer_overflow (decode : String → Option AgentSDK.GoVal)
    (maxBufferSize : Nat) (buffer line : String) (rest : List String)
    (hadm : line.utf8ByteSize ≤ maxBufferSize)
    (htrim : trimSpace line ≠ "")
    (hover : (buffer ++ trimSpace line).utf8ByteSize > maxBufferSize) :
    runFramer decode maxBufferSize buffer (line :: rest) =
      ((runFramer decode maxBufferSize "" rest).1,
        FrameOut.decodeErr
          ("Buffer size " ++ toString (buffer ++ trimSpace line).utf8ByteSize ++
            " exceeds limit " ++ toString maxBufferSize) ::
          (runFramer decode maxBufferSize "" rest).2.1,
        (runFramer decode maxBufferSize "" rest).2.2) := by
  rw [runFramer_cons decode maxBufferSize buffer line rest (by omega),
    processLine_overflow decode maxBufferSize buffer line htrim hover]
  rfl

end AgentSDK.Framer

namespace AgentSDK.Protocol

/-- C3: for every sequence of decoded objects emitted by the transport, the
objects whose type is not `control_request`, `control_response` or
`control_cancel_request` are forwarded to the consumer message channel in
exactly the relative order they were emitted (the forwarded stream is the
control-free filter of the input stream), and no control envelope ever
appears on the consumer channel. -/
theorem C3_stream_order_and_control_free (pending : List String)
    (chans : List (String × List ControlResult)) (fr : Bool)
    (msgs : List AgentSDK.GoObj) :
    (readLoop ⟨pending, chans, fr, false⟩ msgs).2 =
        msgs.filter (fun m => !isControlEnvelope m) ∧
      ∀ m ∈ (readLoop ⟨pending, chans, fr, false⟩ msgs).2,
        isControlEnvelope m = false := by
  have h := readLoop_out_eq_filter msgs ⟨pending, chans, fr, false⟩ rfl
  refine ⟨h, ?_⟩
  intro m hm
  rw [h] at hm
  have := List.of_mem_filter hm
  simpa using this

end AgentSDK.Protocol

namespace AgentSDK.Framer

/-- C4: a single JSON object split across N ≥ 1 scanner-admissible physical
lines — none of whose proper reassembly states decodes, all of whose
reassembly states fit the buffer limit, and whose full reassembly decodes to
`v` — is emitted as exactly one decoded object by the framing loop, with no
fatal scan error; when a scanner-admissible line pushes the accumulated
buffer beyond `maxBufferSize`, exactly one decode error is emitted, the
buffer is reset, and the remaining lines are processed exactly as a fresh
stream; a physical line that itself exceeds the scanner `maxBufferSize`
token cap is never processed at all — the scan ends fatally (a connection
error, not a decode error, with nothing emitted for that line). -/
theorem C4_reassembly_and_overflow (decode : String → Option AgentSDK.GoVal)
    (maxBufferSize : Nat) (lines : List String) (v : AgentSDK.GoVal)
    (buffer line : String) (rest : List String)
    (bigLine buf0 : String) (bRest : List String)
    (hne : lines ≠ [])
    (hadm : ∀ l ∈ lines, l.utf8ByteSize ≤ maxBufferSize)
    (htrim : ∀ l ∈ lines, trimSpace l ≠ "")
    (hpre : ∀ k, 0 < k → k < lines.length →
      decode (accumTrimmed (lines.take k)) = none)
    (hsz : ∀ k, 0 < k → k ≤ lines.length →
      (accumTrimmed (lines.take k)).utf8ByteSize ≤ maxBufferSize)
    (hfull : decode (accumTrimmed lines) = some v)
    (hadm2 : line.utf8ByteSize ≤ maxBufferSize)
    (htrim2 : trimSpace line ≠ "")
    (hover : (buffer ++ trimSpace line).utf8ByteSize > maxBufferSize)
    (hbig : bigLine.utf8ByteSize > maxBufferSize) :
    runFramer decode maxBufferSize "" lines = ("", [FrameOut.msg v], false) ∧
    runFramer decode maxBufferSize buffer (line :: rest) =
      ((runFramer decode maxBufferSize "" rest).1,
        FrameOut.decodeErr
          ("Buffer size " ++ toString (buffer ++ trimSpace line).utf8ByteSize ++
            " exceeds limit " ++ toString maxBufferSize) ::
          (runFramer decode maxBufferSize "" rest).2.1,
        (runFramer decode maxBufferSize "" rest).2.2) ∧
    runFramer decode maxBufferSize buf0 (bigLine :: bRest) = (buf0, [], true) := by
  refine ⟨?_, ?_, ?_⟩
  · exact runFramer_assembles decode maxBufferSize lines "" v hne hadm htrim
      (fun k hk1 hk2 => by rw [String.empty_append]; exact hpre k hk1 hk2)
      (fun k hk1 hk2 => by rw [String.empty_append]; exact hsz k hk1 hk2)
      (by rw [String.empty_append]; exact hfull)
  · exact runFramer_overflow decode maxBufferSize buffer line rest hadm2
      htrim2 hover
  · exact runFramer_fatal decode maxBufferSize buf0 bigLine bRest hbig

/-- Concrete JSON decoder for the framing witness: recognizes the one
document used there. -/
def decodeW4 : String → Option AgentSDK.GoVal := fun s =>
  if s = "\x7b\"a\":1\x7d" then some (AgentSDK.GoVal.obj [("a", AgentSDK.GoVal.num 1)])
  else none

/-- Witness for C4: a document split across two admissible lines is emitted
once; an admissible line overflowing a non-empty accumulated buffer emits one
decode error and processing resumes; a line longer than the scanner cap ends
the scan fatally. -/
theorem C4_witness :
    runFramer decodeW4 8 "" ["\x7b\"a\":", "1\x7d"] =
        ("", [FrameOut.msg (AgentSDK.GoVal.obj [("a", AgentSDK.GoVal.num 1)])],
          false) ∧
      runFramer decodeW4 8 "\x7b\"a\":" ("\"xxx\"" :: ["\x7b\"a\":1\x7d"]) =
        ((runFramer decodeW4 8 "" ["\x7b\"a\":1\x7d"]).1,
          FrameOut.decodeErr
            ("Buffer size " ++
              toString ("\x7b\"a\":" ++ trimSpace "\"xxx\"").utf8ByteSize ++
              " exceeds limit " ++ toString 8) ::
            (runFramer decodeW4 8 "" ["\x7b\"a\":1\x7d"]).2.1,
          (runFramer decodeW4 8 "" ["\x7b\"a\":1\x7d"]).2.2) ∧
      runFramer decodeW4 8 "" ("xxxxxxxxx" :: []) = ("", [], true) :=
  C4_reassembly_and_overflow decodeW4 8 ["\x7b\"a\":", "1\x7d"]
    (AgentSDK.GoVal.obj [("a", AgentSDK.GoVal.num 1)])
    "\x7b\"a\":" "\"xxx\"" ["\x7b\"a\":1\x7d"]
    "xxxxxxxxx" "" []
    (by decide)
    (by intro l hl; fin_cases hl <;> decide)
    (by intro l hl; fin_cases hl <;> decide)
    (by
      intro k hk1 hk2
      simp only [List.length_cons, List.length_nil] at hk2
      interval_cases k
      rfl)
    (by
      intro k hk1 hk2
      simp only [List.length_cons, List.length_nil] at hk2
      interval_cases k <;> decide)
    rfl
    (by decide)
    (by decide)
    (by decide)
    (by decide)

end AgentSDK.Framer

namespace AgentSDK.Protocol

theorem handleControlResponse_found (st : QState) (msg : AgentSDK.GoObj)
    (hfound : AgentSDK.getString (responsePayload msg) "request_id" ∈ st.pendingIDs) :
    handleControlResponse st msg =
      ({ st with
          pendingIDs :=
            st.pendingIDs.erase (AgentSDK.getString (responsePayload msg) "request_id"),
          chans := appendChan st.chans
            (AgentSDK.getString (responsePayload msg) "request_id")
            (responseResult (responsePayload msg)) },
        some (AgentSDK.getString (responsePayload msg) "request_id",
          responseResult (responsePayload msg))) := by
  unfold handleControlResponse
  rw [if_pos hfound]

theorem handleControlResponse_notfound (st : QState) (msg : AgentSDK.GoObj)
    (hnf : AgentSDK.getString (responsePayload msg) "request_id" ∉ st.pendingIDs) :
    handleControlResponse st msg = (st, none) := by
  unfold handleControlResponse
  rw [if_neg hnf]

theorem lookupKey_appendChan_self (chans : List (String × List ControlResult))
    (id : String) (r : ControlResult) :
    lookupKey (appendChan chans id r) id =
      (lookupKey chans id).map (fun buf => buf ++ [r]) := by
  induction chans with
  | nil => rfl
  | cons e rest ih =>
    obtain ⟨k, buf⟩ := e
    by_cases hk : k = id
    · subst hk
      simp [appendChan, lookupKey]
    · simp [appendChan, lookupKey, hk, ih]

theorem lookupKey_appendChan_other (chans : List (String × List ControlResult))
    (id id' : String) (r : ControlResult) (hne : id' ≠ id) :
    lookupKey (appendChan chans id r) id' = lookupKey chans id' := by
  induction chans with
  | nil => rfl
  | cons e rest ih =>
    obtain ⟨k, buf⟩ := e
    by_cases hk : k = id
    · have h2 : ¬ (id = id') := fun hh => hne hh.symm
      simp [appendChan, lookupKey, hk, h2]
    · by_cases hk' : k = id'
      · simp [appendChan, lookupKey, hk, hk', hne]
      · simp [appendChan, lookupKey, hk, hk', ih]

theorem mem_appendChan (chans : List (String × List ControlResult))
    (e' : String × List ControlResult) (id : String) (r : ControlResult)
    (h : e' ∈ appendChan chans id r) :
    e' ∈ chans ∨ ∃ buf, lookupKey chans id = some buf ∧ e' = (id, buf ++ [r]) := by
  induction chans with
  | nil => simp [appendChan] at h
  | cons e rest ih =>
    obtain ⟨k, buf⟩ := e
    by_cases hk : k = id
    · simp only [appendChan] at h
      rw [if_pos hk] at h
      rcases List.mem_cons.mp h with h1 | h1
      · right
        refine ⟨buf, ?_, by rw [h1, hk]⟩
        rw [lookupKey, if_pos hk]
      · left
        exact List.mem_cons_of_mem _ h1
    · simp only [appendChan] at h
      rw [if_neg hk] at h
      rcases List.mem_cons.mp h with h1 | h1
      · left
        rw [h1]
        exact List.mem_cons_self _ _
      · rcases ih h1 with h2 | ⟨buf', hb, he⟩
        · left
          exact List.mem_cons_of_mem _ h2
        · right
          refine ⟨buf', ?_, he⟩
          rw [lookupKey, if_neg hk]
          exact hb

theorem chanInv_init : ChanInv initQState := by
  refine ⟨List.nodup_nil, ?_, ?_⟩ <;> intro x hx <;> simp [initQState] at hx

theorem chanInv_register (st : QState) (id : String) (h : ChanInv st) :
    ChanInv (registerPending st id) := by
  obtain ⟨hnd, hpend, hlen⟩ := h
  refine ⟨?_, ?_, ?_⟩
  · by_cases hm : id ∈ st.pendingIDs
    · simpa [registerPending, hm] using hnd
    · simpa [registerPending, hm] using List.nodup_cons.mpr ⟨hm, hnd⟩
  · intro id' hid'
    by_cases he : id' = id
    · subst he
      simp [registerPending, lookupKey]
    · have hold : id' ∈ st.pendingIDs := by
        by_cases hm : id ∈ st.pendingIDs
        · simpa [registerPending, hm] using hid'
        · rcases (by simpa [registerPending, hm] using hid' : id' = id ∨
            id' ∈ st.pendingIDs) with h1 | h1
          · exact absurd h1 he
          · exact h1
      have : ¬ (id = id') := fun hh => he hh.symm
      simp only [registerPending, lookupKey, if_neg this]
      exact hpend id' hold
  · intro e he
    rcases (by simpa [registerPending] using he : e = (id, []) ∨ e ∈ st.chans) with
      h1 | h1
    · simp [h1]
    · exact hlen e h1

theorem chanInv_handleControlResponse (st : QState) (msg : AgentSDK.GoObj)
    (h : ChanInv st) : ChanInv (handleControlResponse st msg).1 := by
  obtain ⟨hnd, hpend, hlen⟩ := h
  by_cases hm : AgentSDK.getString (responsePayload msg) "request_id" ∈ st.pendingIDs
  · rw [handleControlResponse_found st msg hm]
    set rid := AgentSDK.getString (responsePayload msg) "request_id" with hrid
    refine ⟨hnd.erase rid, ?_, ?_⟩
    · intro id' hid'
      have h1 : id' ≠ rid ∧ id' ∈ st.pendingIDs := (List.Nodup.mem_erase_iff hnd).mp hid'
      rw [lookupKey_appendChan_other st.chans rid id' _ h1.1]
      exact hpend id' h1.2
    · intro e he
      rcases mem_appendChan st.chans e rid (responseResult (responsePayload msg)) he with
        h1 | ⟨buf, hb, h2⟩
      · exact hlen e h1
      · have : buf = [] := by
          have := hpend rid hm
          rw [hb] at this
          exact (Option.some.injEq _ _).mp this.symm |>.symm
        rw [h2, this]
        simp
  · rw [handleControlResponse_notfound st msg hm]
    exact ⟨hnd, hpend, hlen⟩

theorem chanInv_processMsg (st : QState) (msg : AgentSDK.GoObj) (h : ChanInv st) :
    ChanInv (processMsg st msg).1 := by
  unfold processMsg
  dsimp only
  repeat' split
  all_goals first
    | exact h
    | exact chanInv_handleControlResponse st msg h

theorem chanInv_applyEvent (st : QState) (e : QEvent) (h : ChanInv st) :
    ChanInv (applyEvent st e).1 := by
  cases e with
  | register id => exact chanInv_register st id h
  | inbound m =>
    unfold applyEvent
    dsimp only
    split
    · exact h
    · exact chanInv_processMsg st m h
  | ctxDone id =>
    obtain ⟨hnd, hpend, hlen⟩ := h
    refine ⟨hnd.erase id, ?_, hlen⟩
    intro id' hid'
    exact hpend id' (List.mem_of_mem_erase hid')
  | close => exact ⟨h.1, h.2.1, h.2.2⟩

theorem chanInv_runTrace (evs : List QEvent) : ChanInv (runTrace initQState evs) := by
  suffices h : ∀ (evs : List QEvent) (st : QState), ChanInv st →
      ChanInv (runTrace st evs) from h evs initQState chanInv_init
  intro evs
  induction evs with
  | nil => intro st h; exact h
  | cons e rest ih =>
    intro st h
    exact ih (applyEvent st e).1 (chanInv_applyEvent st e h)

end AgentSDK.Protocol

namespace AgentSDK.Protocol

/-- C1: an outbound control request whose correlated success response arrives
is delivered exactly the payload of that response (the pending entry is
consumed and the caller's channel read returns the payload); if instead the
caller's context is done first, the caller gets a timeout error and the
pending entry is removed, after which the very same late response is
discarded — not delivered to anyone and leaving the state untouched. -/
theorem C1_correlation_timeout_discard (st : QState) (id : String)
    (p : AgentSDK.GoObj) (subtype : String)
    (hnodup : st.pendingIDs.Nodup)
    (hpend : id ∈ st.pendingIDs)
    (hchan : lookupKey st.chans id = some []) :
    (processMsg st (successResponseMsg id p)).2.1 =
        some (id, ControlResult.ok (some p)) ∧
      chanBufOf (processMsg st (successResponseMsg id p)).1 id =
        [ControlResult.ok (some p)] ∧
      callerReturn (ControlResult.ok (some p)) = .ok (some p) ∧
      (sendCtxDone st id subtype).2 =
        .error (.timeoutError ("control request: " ++ subtype)) ∧
      id ∉ (sendCtxDone st id subtype).1.pendingIDs ∧
      processMsg (sendCtxDone st id subtype).1 (successResponseMsg id p) =
        ((sendCtxDone st id subtype).1, none, none) := by
  have hrid : AgentSDK.getString (responsePayload (successResponseMsg id p))
      "request_id" = id := rfl
  have hres : responseResult (responsePayload (successResponseMsg id p)) =
      ControlResult.ok (some p) := rfl
  have htype : AgentSDK.getString (successResponseMsg id p) "type" =
      "control_response" := rfl
  have hproc : processMsg st (successResponseMsg id p) =
      ((handleControlResponse st (successResponseMsg id p)).1,
        (handleControlResponse st (successResponseMsg id p)).2, none) := by
    unfold processMsg
    rw [htype]
    simp
  have hfound := handleControlResponse_found st (successResponseMsg id p)
    (by rw [hrid]; exact hpend)
  rw [hrid, hres] at hfound
  refine ⟨?_, ?_, rfl, rfl, ?_, ?_⟩
  · rw [hproc]
    dsimp only
    rw [hfound]
  · rw [hproc]
    dsimp only
    rw [hfound]
    dsimp only [chanBufOf]
    rw [lookupKey_appendChan_self, hchan]
    rfl
  · exact (List.Nodup.mem_erase_iff hnodup).not.mpr (by simp)
  · have hnf := handleControlResponse_notfound (sendCtxDone st id subtype).1
      (successResponseMsg id p)
      (by
        rw [hrid]
        dsimp only [sendCtxDone]
        exact (List.Nodup.mem_erase_iff hnodup).not.mpr (by simp))
    unfold processMsg
    rw [htype]
    simp [hnf]

/-- Witness for C1 at a concrete pending request and response payload. -/
theorem C1_witness :
    (processMsg ⟨["req_1_ab"], [("req_1_ab", [])], false, false⟩
        (successResponseMsg "req_1_ab" [("ok", AgentSDK.GoVal.bool true)])).2.1 =
        some ("req_1_ab", ControlResult.ok (some [("ok", AgentSDK.GoVal.bool true)])) ∧
      chanBufOf (processMsg ⟨["req_1_ab"], [("req_1_ab", [])], false, false⟩
        (successResponseMsg "req_1_ab" [("ok", AgentSDK.GoVal.bool true)])).1
        "req_1_ab" = [ControlResult.ok (some [("ok", AgentSDK.GoVal.bool true)])] ∧
      callerReturn (ControlResult.ok (some [("ok", AgentSDK.GoVal.bool true)])) =
        .ok (some [("ok", AgentSDK.GoVal.bool true)]) ∧
      (sendCtxDone ⟨["req_1_ab"], [("req_1_ab", [])], false, false⟩ "req_1_ab"
          "interrupt").2 =
        .error (.timeoutError ("control request: " ++ "interrupt")) ∧
      "req_1_ab" ∉ (sendCtxDone ⟨["req_1_ab"], [("req_1_ab", [])], false, false⟩
          "req_1_ab" "interrupt").1.pendingIDs ∧
      processMsg (sendCtxDone ⟨["req_1_ab"], [("req_1_ab", [])], false, false⟩
          "req_1_ab" "interrupt").1
          (successResponseMsg "req_1_ab" [("ok", AgentSDK.GoVal.bool true)]) =
        ((sendCtxDone ⟨["req_1_ab"], [("req_1_ab", [])], false, false⟩ "req_1_ab"
          "interrupt").1, none, none) :=
  C1_correlation_timeout_discard ⟨["req_1_ab"], [("req_1_ab", [])], false, false⟩
    "req_1_ab" [("ok", AgentSDK.GoVal.bool true)] "interrupt"
    (by decide) (by decide) rfl

end AgentSDK.Protocol

namespace AgentSDK.Protocol

/-- A connection state with three outbound control requests pending, used to
exhibit what `Close` does to pending callers. -/
def threePendingState : QState :=
  { pendingIDs := ["req_1_aa", "req_2_bb", "req_3_cc"],
    chans := [("req_1_aa", []), ("req_2_bb", []), ("req_3_cc", [])],
    firstResult := false,
    closed := false }

/-- C2 counterexample: with three outbound control requests pending, `Close`
delivers no result — in particular no connection-closed error — to any of the
pending callers' channels, so it is false that every pending caller receives
a connection-closed error from `Close`. -/
theorem C2_counterexample :
    ¬ (∀ id ∈ threePendingState.pendingIDs,
        ∃ r, (id, r) ∈ (closeQuery threePendingState).2) := by
  intro h
  rcases h "req_1_aa" (by decide) with ⟨r, hr⟩
  simp [closeQuery] at hr

theorem lookupKey_sendNonBlocking_other
    (chans : List (String × List ControlResult)) (id id' : String)
    (r : ControlResult) (hne : id' ≠ id) :
    lookupKey (sendNonBlocking chans id r) id' = lookupKey chans id' := by
  unfold sendNonBlocking
  split
  · exact lookupKey_appendChan_other chans id id' r hne
  · rfl

theorem sendNonBlocking_full (chans : List (String × List ControlResult))
    (id : String) (r : ControlResult) (l : List ControlResult)
    (hl : lookupKey chans id = some l) (hfull : 1 ≤ l.length) :
    sendNonBlocking chans id r = chans := by
  unfold sendNonBlocking
  rw [hl]
  rw [if_neg (by
    simp only [Option.getD_some]
    omega)]

theorem lookupKey_sendNonBlocking_empty
    (chans : List (String × List ControlResult)) (id : String)
    (r : ControlResult) (hl : lookupKey chans id = some []) :
    lookupKey (sendNonBlocking chans id r) id = some [r] := by
  unfold sendNonBlocking
  rw [hl]
  rw [if_pos (by simp)]
  rw [lookupKey_appendChan_self, hl]
  rfl

theorem broadcastAux_preserves_full (e : String) (id : String)
    (l : List ControlResult) (hfull : 1 ≤ l.length) :
    ∀ (pending : List String) (chans : List (String × List ControlResult)),
      lookupKey chans id = some l →
      lookupKey (broadcastAux e chans pending) id = some l := by
  intro pending
  induction pending with
  | nil => intro chans hl; exact hl
  | cons p rest ih =>
    intro chans hl
    by_cases hp : p = id
    · subst hp
      rw [broadcastAux, sendNonBlocking_full chans p _ l hl hfull]
      exact ih chans hl
    · rw [broadcastAux]
      exact ih _ (by
        rw [lookupKey_sendNonBlocking_other chans p id _ (fun h => hp h.symm)]
        exact hl)

theorem broadcastAux_delivers (e : String) (id : String) :
    ∀ (pending : List String) (chans : List (String × List ControlResult)),
      id ∈ pending → lookupKey chans id = some [] →
      lookupKey (broadcastAux e chans pending) id =
        some [ControlResult.err e] := by
  intro pending
  induction pending with
  | nil =>
    intro chans hmem
    exact absurd hmem (List.not_mem_nil id)
  | cons p rest ih =>
    intro chans hmem hl
    by_cases hp : p = id
    · subst hp
      rw [broadcastAux]
      exact broadcastAux_preserves_full e p [ControlResult.err e] (by simp)
        rest _ (lookupKey_sendNonBlocking_empty chans p _ hl)
    · rw [broadcastAux]
      refine ih _ ?_ ?_
      · rcases List.mem_cons.mp hmem with h1 | h1
        · exact absurd h1.symm hp
        · exact h1
      · rw [lookupKey_sendNonBlocking_other chans p id _ (fun h => hp h.symm)]
        exact hl

/-- C2 amended: `Close` itself resolves no pending outbound request — it only
sets the closed flag, cancels the reader context and closes the transport,
delivering nothing to any response channel and leaving the pending table and
every channel buffer untouched.  Pending callers can then be released by two
separate, schedule-dependent paths: if the reader observes the transport
error of the killed process before its cancelled context, its transport-error
branch broadcasts a connection error to every still-pending (empty) response
channel without deregistering the entries; otherwise a caller is released
only when its own context becomes done, receiving a timeout error (the
ctx-done path itself never yields a connection error).  Neither path is
guaranteed in every execution, so it is not the case that every pending
caller receives a connection-closed error and none block forever. -/
theorem C2_close_does_not_release_pending (st : QState)
    (id subtype e : String) :
    closeQuery st = ({ st with closed := true }, []) ∧
      (closeQuery st).1.pendingIDs = st.pendingIDs ∧
      (closeQuery st).1.chans = st.chans ∧
      (sendCtxDone st id subtype).2 =
        .error (.timeoutError ("control request: " ++ subtype)) ∧
      (∀ e', (sendCtxDone st id subtype).2 ≠ .error (.connectionError e')) ∧
      (broadcastTransportErr st e).pendingIDs = st.pendingIDs ∧
      ∀ id' ∈ st.pendingIDs, lookupKey st.chans id' = some [] →
        lookupKey (broadcastTransportErr st e).chans id' =
          some [ControlResult.err e] :=
  ⟨rfl, rfl, rfl, rfl, fun e' h => by simp [sendCtxDone] at h, rfl,
    fun id' hmem hl => broadcastAux_delivers e id' st.pendingIDs st.chans hmem hl⟩

/-- Witness for C2: the amended close/release behavior at the concrete
three-pending state. -/
theorem C2_witness :
    closeQuery threePendingState = ({ threePendingState with closed := true }, []) ∧
      (closeQuery threePendingState).1.pendingIDs = threePendingState.pendingIDs ∧
      (closeQuery threePendingState).1.chans = threePendingState.chans ∧
      (sendCtxDone threePendingState "req_1_aa" "interrupt").2 =
        .error (.timeoutError ("control request: " ++ "interrupt")) ∧
      (∀ e', (sendCtxDone threePendingState "req_1_aa" "interrupt").2 ≠
        .error (.connectionError e')) ∧
      (broadcastTransportErr threePendingState "exit status 1").pendingIDs =
        threePendingState.pendingIDs ∧
      lookupKey (broadcastTransportErr threePendingState "exit status 1").chans
          "req_1_aa" = some [ControlResult.err "exit status 1"] := by
  obtain ⟨h1, h2, h3, h4, h5, h6, h7⟩ := C2_close_does_not_release_pending
    threePendingState "req_1_aa" "interrupt" "exit status 1"
  exact ⟨h1, h2, h3, h4, h5, h6, h7 "req_1_aa" (by decide) rfl⟩

/-- C9: along any execution of the engine (any sequence of registrations,
inbound objects, caller timeouts and closes from the initial state), whenever
the reader processes a `control_response` that delivers a result, the target
channel's buffer is empty at that moment — so the send on the capacity-one
channel completes immediately and the reader never blocks — the pending
entry is consumed by the same step, the channel ends up holding exactly that
one result (no channel ever holds more than one), and a `control_response`
whose correlation id has no pending entry changes nothing and delivers
nothing. -/
theorem C9_delivery_nonblocking (evs : List QEvent) (msg : AgentSDK.GoObj)
    (st' : QState) (id : String) (r : ControlResult)
    (hdeliver : handleControlResponse (runTrace initQState evs) msg =
      (st', some (id, r))) :
    lookupKey (runTrace initQState evs).chans id = some [] ∧
      id ∈ (runTrace initQState evs).pendingIDs ∧
      id ∉ st'.pendingIDs ∧
      lookupKey st'.chans id = some [r] ∧
      (∀ e ∈ st'.chans, (e.2 : List ControlResult).length ≤ 1) ∧
      ∀ m : AgentSDK.GoObj,
        AgentSDK.getString (responsePayload m) "request_id" ∉
            (runTrace initQState evs).pendingIDs →
          handleControlResponse (runTrace initQState evs) m =
            ((runTrace initQState evs), none) := by
  obtain ⟨hnd, hpend, hlen⟩ := chanInv_runTrace evs
  set st := runTrace initQState evs with hst
  by_cases hm : AgentSDK.getString (responsePayload msg) "request_id" ∈ st.pendingIDs
  · have hfound := handleControlResponse_found st msg hm
    rw [hfound] at hdeliver
    have hids : AgentSDK.getString (responsePayload msg) "request_id" = id ∧
        responseResult (responsePayload msg) = r := by
      have := congrArg Prod.snd hdeliver
      simpa using this
    have hstates := congrArg Prod.fst hdeliver
    dsimp only at hstates
    obtain ⟨hid, hr⟩ := hids
    refine ⟨?_, ?_, ?_, ?_, ?_, ?_⟩
    · rw [← hid]
      exact hpend _ hm
    · rw [← hid]
      exact hm
    · rw [← hstates]
      dsimp only
      rw [hid]
      exact (List.Nodup.mem_erase_iff hnd).not.mpr (by simp)
    · rw [← hstates]
      dsimp only
      rw [hid, hr, lookupKey_appendChan_self, ← hid, hpend _ hm]
      rfl
    · intro e he
      rw [← hstates] at he
      dsimp only at he
      rcases mem_appendChan st.chans e _ _ he with h1 | ⟨buf, hb, h2⟩
      · exact hlen e h1
      · have hbempty : buf = [] := by
          have h3 := hpend _ hm
          rw [hb] at h3
          injection h3
        rw [h2, hbempty]
        simp
    · intro m hnm
      exact handleControlResponse_notfound st m hnm
  · rw [handleControlResponse_notfound st msg hm] at hdeliver
    exact absurd (congrArg Prod.snd hdeliver) (by simp)

/-- Witness for C9: a trace that registers one request and then receives its
success response. -/
theorem C9_witness :
    lookupKey (runTrace initQState [QEvent.register "req_1_ab"]).chans
        "req_1_ab" = some [] ∧
      "req_1_ab" ∈ (runTrace initQState [QEvent.register "req_1_ab"]).pendingIDs ∧
      "req_1_ab" ∉ (⟨[], [("req_1_ab",
        [ControlResult.ok (some [("x", AgentSDK.GoVal.num 1)])])], false, false⟩ :
          QState).pendingIDs ∧
      lookupKey (⟨[], [("req_1_ab",
        [ControlResult.ok (some [("x", AgentSDK.GoVal.num 1)])])], false, false⟩ :
          QState).chans "req_1_ab" =
        some [ControlResult.ok (some [("x", AgentSDK.GoVal.num 1)])] ∧
      (∀ e ∈ (⟨[], [("req_1_ab",
        [ControlResult.ok (some [("x", AgentSDK.GoVal.num 1)])])], false, false⟩ :
          QState).chans, (e.2 : List ControlResult).length ≤ 1) ∧
      ∀ m : AgentSDK.GoObj,
        AgentSDK.getString (responsePayload m) "request_id" ∉
            (runTrace initQState [QEvent.register "req_1_ab"]).pendingIDs →
          handleControlResponse (runTrace initQState [QEvent.register "req_1_ab"]) m =
            ((runTrace initQState [QEvent.register "req_1_ab"]), none) :=
  C9_delivery_nonblocking [QEvent.register "req_1_ab"]
    (successResponseMsg "req_1_ab" [("x", AgentSDK.GoVal.num 1)])
    ⟨[], [("req_1_ab", [ControlResult.ok (some [("x", AgentSDK.GoVal.num 1)])])],
      false, false⟩
    "req_1_ab" (ControlResult.ok (some [("x", AgentSDK.GoVal.num 1)])) rfl

end AgentSDK.Protocol

namespace AgentSDK.Permission

open AgentSDK

/-- C5: for an inbound `can_use_tool` request whose `input` is a map, an allow
decision with no modified input produces a response that carries an
`updatedInput` field equal to the original request input (present, not
omitted), and a deny decision always produces a response carrying the deny
message. -/
theorem C5_allow_echo_and_deny_message (request i : GoObj)
    (us : List PermissionUpdate)
    (hinput : lookupField request "input" = some (GoVal.obj i))
    (hsugg : convertSuggestions
      ((asArr? (lookupField request "permission_suggestions")).getD []) = some us) :
    (∀ (cb : CanUseToolFn) (ups : Option (List PermissionUpdate)),
      cb (getString request "tool_name") (some i) us =
          .ok (.allow none ups) →
        ∃ rd, handleToolPermission (some cb) request = some (.ok rd) ∧
          lookupField rd "updatedInput" = some (GoVal.obj i) ∧
          lookupField rd "behavior" = some (GoVal.str "allow")) ∧
    (∀ (cb : CanUseToolFn) (m : String) (intr : Bool),
      cb (getString request "tool_name") (some i) us =
          .ok (.deny m intr) →
        ∃ rd, handleToolPermission (some cb) request = some (.ok rd) ∧
          lookupField rd "message" = some (GoVal.str m) ∧
          lookupField rd "behavior" = some (GoVal.str "deny")) := by
  constructor
  · intro cb ups hcb
    cases ups with
    | none =>
      refine ⟨[("behavior", GoVal.str "allow"), ("updatedInput", GoVal.obj i)],
        ?_, rfl, rfl⟩
      simp [handleToolPermission, asObj?, hinput, hsugg, hcb]
    | some ps =>
      refine ⟨[("behavior", GoVal.str "allow"), ("updatedInput", GoVal.obj i)] ++
        [("updatedPermissions", GoVal.arr (ps.map (fun p => GoVal.obj p.ToMap)))],
        ?_, rfl, rfl⟩
      simp [handleToolPermission, asObj?, hinput, hsugg, hcb]
  · intro cb m intr hcb
    refine ⟨[("behavior", GoVal.str "deny"), ("message", GoVal.str m)] ++
      (if intr then [("interrupt", GoVal.bool true)] else []), ?_, ?_, ?_⟩
    · simp [handleToolPermission, asObj?, hinput, hsugg, hcb]
    · cases intr <;> rfl
    · cases intr <;> rfl

/-- An allow-with-no-updates permission callback, for the C5 witness. -/
def cbAllowW : CanUseToolFn := fun _ _ _ => .ok (.allow none none)

/-- A deny permission callback, for the C5 witness. -/
def cbDenyW : CanUseToolFn := fun _ _ _ => .ok (.deny "not allowed" false)

/-- A concrete `can_use_tool` request, for the C5 witness. -/
def requestW5 : GoObj :=
  [("tool_name", GoVal.str "Bash"), ("input", GoVal.obj [("cmd", GoVal.str "ls")])]

/-- Witness for C5 at a concrete request, allow callback and deny callback. -/
theorem C5_witness :
    (∃ rd, handleToolPermission (some cbAllowW) requestW5 = some (.ok rd) ∧
      lookupField rd "updatedInput" =
        some (GoVal.obj [("cmd", GoVal.str "ls")]) ∧
      lookupField rd "behavior" = some (GoVal.str "allow")) ∧
    (∃ rd, handleToolPermission (some cbDenyW) requestW5 = some (.ok rd) ∧
      lookupField rd "message" = some (GoVal.str "not allowed") ∧
      lookupField rd "behavior" = some (GoVal.str "deny")) :=
  ⟨(C5_allow_echo_and_deny_message requestW5 [("cmd", GoVal.str "ls")] [] rfl rfl).1
      cbAllowW none rfl,
    (C5_allow_echo_and_deny_message requestW5 [("cmd", GoVal.str "ls")] [] rfl rfl).2
      cbDenyW "not allowed" false rfl⟩

/-- C6: an inbound `can_use_tool` request received when no permission callback
is registered always produces an error control response for that request —
the nested response has subtype `error` and carries no response payload at
all, in particular no allow decision. -/
theorem C6_missing_callback_is_error (requestID : String) (request : GoObj) :
    dispatchCanUseTool none requestID request =
        some (controlResponseEnvelope requestID
          (.error "canUseTool callback is not provided")) ∧
      getString (Protocol.responsePayload (controlResponseEnvelope requestID
        (.error "canUseTool callback is not provided"))) "subtype" = "error" ∧
      lookupField (Protocol.responsePayload (controlResponseEnvelope requestID
        (.error "canUseTool callback is not provided"))) "response" = none :=
  ⟨rfl, rfl, rfl⟩

end AgentSDK.Permission

namespace AgentSDK.Classifier

open AgentSDK

theorem parseContentBlocks_skip_unknown (bad : GoObj)
    (hbad : getString bad "type" ∉ (["text", "thinking", "tool_use",
      "tool_result"] : List String)) :
    ∀ (pre post : List GoVal),
      parseContentBlocks (pre ++ GoVal.obj bad :: post) =
        parseContentBlocks (pre ++ post) := by
  simp only [List.mem_cons, not_or, List.mem_singleton, List.not_mem_nil,
    not_false_iff, and_true] at hbad
  obtain ⟨h1, h2, h3, h4⟩ := hbad
  intro pre
  induction pre with
  | nil =>
    intro post
    simp only [List.nil_append]
    conv_lhs => rw [parseContentBlocks]
    simp only [asObj?]
    rw [if_neg h1, if_neg h2, if_neg h3, if_neg h4]
  | cons b pre' ih =>
    intro post
    simp only [List.cons_append]
    unfold parseContentBlocks
    cases b with
    | obj fs => simp [asObj?, ih post]
    | str s => simpa [asObj?] using ih post
    | num n => simpa [asObj?] using ih post
    | bool x => simpa [asObj?] using ih post
    | null => simpa [asObj?] using ih post
    | arr xs => simpa [asObj?] using ih post
    | ptrStr s => simpa [asObj?] using ih post

/-- C7: a decoded object whose top-level `type` is missing or not one of the
five known message kinds makes `ParseMessage` return a typed parse error
(never a silent drop); and inside a user/assistant `content` array, a block
whose own `type` discriminator is unrecognized is skipped while the remaining
blocks are classified, the whole (assistant) message still parsing
successfully. -/
theorem C7_unknown_type_error_unknown_block_skipped
    (dataU dataA md bad : GoObj) (pre post blocks : List GoVal)
    (hunk : ∀ t, asString? (lookupField dataU "type") = some t →
      t ∉ (["user", "assistant", "system", "result", "stream_event"] :
        List String))
    (hbad : getString bad "type" ∉ (["text", "thinking", "tool_use",
      "tool_result"] : List String))
    (htypeA : asString? (lookupField dataA "type") = some "assistant")
    (hmd : asObj? (lookupField dataA "message") = some md)
    (hcontent : asArr? (lookupField md "content") = some blocks) :
    (∃ e, ParseMessage dataU = .error e) ∧
      parseContentBlocks (pre ++ GoVal.obj bad :: post) =
        parseContentBlocks (pre ++ post) ∧
      ParseMessage dataA = .ok (Message.assistant
        (asString? (lookupField dataA "parent_tool_use_id"))
        (getString md "model") (parseContentBlocks blocks)) := by
  refine ⟨?_, parseContentBlocks_skip_unknown bad hbad pre post, ?_⟩
  · cases h : asString? (lookupField dataU "type") with
    | none =>
      refine ⟨"Message missing 'type' field", ?_⟩
      unfold ParseMessage
      rw [h]
    | some t =>
      have hne := hunk t h
      simp only [List.mem_cons, not_or, List.mem_singleton, List.not_mem_nil,
        not_false_iff, and_true] at hne
      obtain ⟨h1, h2, h3, h4, h5⟩ := hne
      refine ⟨"Unknown message type: " ++ t, ?_⟩
      unfold ParseMessage
      rw [h]
      dsimp only
      rw [if_neg h1, if_neg h2, if_neg h3, if_neg h4, if_neg h5]
  · unfold ParseMessage
    rw [htypeA]
    dsimp only
    rw [if_neg (by decide), if_pos rfl]
    unfold parseAssistantMessage
    rw [hmd]
    dsimp only
    rw [hcontent]

/-- An unrecognized content block, for the C7 witness. -/
def badBlockW : GoObj := [("type", GoVal.str "mystery")]

/-- A concrete assistant wire message containing an unknown content block,
for the C7 witness. -/
def assistantW : GoObj :=
  [("type", GoVal.str "assistant"),
   ("message", GoVal.obj
     [("model", GoVal.str "m1"),
      ("content", GoVal.arr
        [GoVal.obj [("type", GoVal.str "text"), ("text", GoVal.str "hi")],
         GoVal.obj badBlockW])])]

/-- Witness for C7 at a concrete unknown-typed object, a concrete unknown
block between two text blocks, and a concrete assistant message. -/
theorem C7_witness :
    (∃ e, ParseMessage [("type", GoVal.str "banana")] = .error e) ∧
      parseContentBlocks
          ([GoVal.obj [("type", GoVal.str "text"), ("text", GoVal.str "a")]] ++
            GoVal.obj badBlockW ::
              [GoVal.obj [("type", GoVal.str "text"), ("text", GoVal.str "b")]]) =
        parseContentBlocks
          ([GoVal.obj [("type", GoVal.str "text"), ("text", GoVal.str "a")]] ++
            [GoVal.obj [("type", GoVal.str "text"), ("text", GoVal.str "b")]]) ∧
      ParseMessage assistantW = .ok (Message.assistant
        (asString? (lookupField assistantW "parent_tool_use_id"))
        (getString [("model", GoVal.str "m1"),
          ("content", GoVal.arr
            [GoVal.obj [("type", GoVal.str "text"), ("text", GoVal.str "hi")],
             GoVal.obj badBlockW])] "model")
        (parseContentBlocks
          [GoVal.obj [("type", GoVal.str "text"), ("text", GoVal.str "hi")],
           GoVal.obj badBlockW])) :=
  C7_unknown_type_error_unknown_block_skipped
    [("type", GoVal.str "banana")] assistantW
    [("model", GoVal.str "m1"),
     ("content", GoVal.arr
       [GoVal.obj [("type", GoVal.str "text"), ("text", GoVal.str "hi")],
        GoVal.obj badBlockW])]
    badBlockW
    [GoVal.obj [("type", GoVal.str "text"), ("text", GoVal.str "a")]]
    [GoVal.obj [("type", GoVal.str "text"), ("text", GoVal.str "b")]]
    [GoVal.obj [("type", GoVal.str "text"), ("text", GoVal.str "hi")],
     GoVal.obj badBlockW]
    (by
      intro t ht
      simp [lookupField, asString?] at ht
      subst ht
      decide)
    (by decide) rfl rfl rfl

end AgentSDK.Classifier

namespace AgentSDK.Hooks

open AgentSDK

theorem mkHookID_injective : Function.Injective mkHookID := by
  intro a b h
  have hd := congrArg String.data h
  rw [mkHookID, mkHookID, String.data_append, String.data_append] at hd
  have := List.append_cancel_left hd
  exact StrNat.repr_injective (String.ext this)

theorem mem_idsFrom (s : String) :
    ∀ (len next : Nat), s ∈ idsFrom next len ↔
      ∃ k, next ≤ k ∧ k < next + len ∧ s = mkHookID k := by
  intro len
  induction len with
  | zero =>
    intro next
    simp [idsFrom]
    omega
  | succ l ih =>
    intro next
    simp only [idsFrom, List.mem_cons, ih (next + 1)]
    constructor
    · rintro (rfl | ⟨k, hk1, hk2, rfl⟩)
      · exact ⟨next, by omega, by omega, rfl⟩
      · exact ⟨k, by omega, by omega, rfl⟩
    · rintro ⟨k, hk1, hk2, rfl⟩
      by_cases hk : k = next
      · exact Or.inl (by rw [hk])
      · exact Or.inr ⟨k, by omega, by omega, rfl⟩

theorem idsFrom_nodup : ∀ (len next : Nat), (idsFrom next len).Nodup := by
  intro len
  induction len with
  | zero => intro next; exact List.nodup_nil
  | succ l ih =>
    intro next
    refine List.nodup_cons.mpr ⟨?_, ih (next + 1)⟩
    rw [mem_idsFrom]
    rintro ⟨k, hk1, hk2, hk3⟩
    have := mkHookID_injective hk3
    omega

theorem registerCallbacks_spec {κ : Type} (cbs : List κ) :
    ∀ (next : Nat) (tbl : List (String × κ)),
      (registerCallbacks next tbl cbs).1 = next + cbs.length ∧
      ((registerCallbacks next tbl cbs).2.1).map Prod.fst =
        tbl.map Prod.fst ++ idsFrom next cbs.length ∧
      ((registerCallbacks next tbl cbs).2.1).map Prod.snd =
        tbl.map Prod.snd ++ cbs ∧
      (registerCallbacks next tbl cbs).2.2 = idsFrom next cbs.length := by
  induction cbs with
  | nil =>
    intro next tbl
    simp [registerCallbacks, idsFrom]
  | cons cb rest ih =>
    intro next tbl
    obtain ⟨ih1, ih2, ih3, ih4⟩ := ih (next + 1) (tbl ++ [(mkHookID next, cb)])
    refine ⟨?_, ?_, ?_, ?_⟩
    · simp only [registerCallbacks, ih1, List.length_cons]
      omega
    · simp only [registerCallbacks, ih2, List.map_append, List.map_cons,
        List.map_nil, List.length_cons, idsFrom, List.append_assoc,
        List.singleton_append]
    · simp only [registerCallbacks, ih3, List.map_append, List.map_cons,
        List.map_nil, List.append_assoc, List.singleton_append]
    · simp only [registerCallbacks, ih4, List.length_cons, idsFrom]

theorem idsFrom_add : ∀ (a b next : Nat),
    idsFrom next (a + b) = idsFrom next a ++ idsFrom (next + a) b := by
  intro a
  induction a with
  | zero =>
    intro b next
    simp [idsFrom]
  | succ n ih =>
    intro b next
    have h1 : n + 1 + b = (n + b) + 1 := by omega
    rw [h1]
    simp only [idsFrom]
    rw [ih b (next + 1)]
    have h2 : next + 1 + n = next + (n + 1) := by omega
    rw [h2]
    rfl

theorem buildMatchers_cons {κ : Type} (next : Nat) (tbl : List (String × κ))
    (m : HookMatcher κ) (rest : List (HookMatcher κ)) :
    buildMatchers next tbl (m :: rest) =
      ((buildMatchers (registerCallbacks next tbl m.hooks).1
          (registerCallbacks next tbl m.hooks).2.1 rest).1,
        (buildMatchers (registerCallbacks next tbl m.hooks).1
          (registerCallbacks next tbl m.hooks).2.1 rest).2.1,
        { matcher := m.matcher,
          callbackIDs := (registerCallbacks next tbl m.hooks).2.2,
          timeout := m.timeout } ::
          (buildMatchers (registerCallbacks next tbl m.hooks).1
            (registerCallbacks next tbl m.hooks).2.1 rest).2.2) := by
  conv_lhs => rw [buildMatchers]

theorem buildEvents_cons {κ : Type} (next : Nat) (tbl : List (String × κ))
    (ev : HookEvent) (ms : List (HookMatcher κ))
    (rest : List (HookEvent × List (HookMatcher κ))) :
    buildEvents next tbl ((ev, ms) :: rest) =
      ((buildEvents (buildMatchers next tbl ms).1
          (buildMatchers next tbl ms).2.1 rest).1,
        (buildEvents (buildMatchers next tbl ms).1
          (buildMatchers next tbl ms).2.1 rest).2.1,
        (ev, (buildMatchers next tbl ms).2.2) ::
          (buildEvents (buildMatchers next tbl ms).1
            (buildMatchers next tbl ms).2.1 rest).2.2) := by
  conv_lhs => rw [buildEvents]

theorem buildMatchers_spec {κ : Type} (ms : List (HookMatcher κ)) :
    ∀ (next : Nat) (tbl : List (String × κ)),
      (buildMatchers next tbl ms).1 = next + matcherHooksCount ms ∧
      ((buildMatchers next tbl ms).2.1).map Prod.fst =
        tbl.map Prod.fst ++ idsFrom next (matcherHooksCount ms) ∧
      ((buildMatchers next tbl ms).2.1).map Prod.snd =
        tbl.map Prod.snd ++ matcherCallbacks ms := by
  induction ms with
  | nil =>
    intro next tbl
    simp [buildMatchers, matcherHooksCount, matcherCallbacks, idsFrom]
  | cons m rest ih =>
    intro next tbl
    obtain ⟨rc1, rc2, rc3, rc4⟩ := registerCallbacks_spec m.hooks next tbl
    obtain ⟨ih1, ih2, ih3⟩ := ih (registerCallbacks next tbl m.hooks).1
      (registerCallbacks next tbl m.hooks).2.1
    rw [buildMatchers_cons]
    refine ⟨?_, ?_, ?_⟩
    · dsimp only
      rw [ih1, rc1, matcherHooksCount]
      omega
    · dsimp only
      rw [ih2, rc2, rc1, List.append_assoc, matcherHooksCount, idsFrom_add]
    · dsimp only
      rw [ih3, rc3, List.append_assoc, matcherCallbacks]

theorem buildEvents_spec {κ : Type}
    (cfg : List (HookEvent × List (HookMatcher κ))) :
    ∀ (next : Nat) (tbl : List (String × κ)),
      (buildEvents next tbl cfg).1 = next + cfgHooksCount cfg ∧
      ((buildEvents next tbl cfg).2.1).map Prod.fst =
        tbl.map Prod.fst ++ idsFrom next (cfgHooksCount cfg) ∧
      ((buildEvents next tbl cfg).2.1).map Prod.snd =
        tbl.map Prod.snd ++ cfgCallbacks cfg := by
  induction cfg with
  | nil =>
    intro next tbl
    simp [buildEvents, cfgHooksCount, cfgCallbacks, idsFrom]
  | cons em rest ih =>
    intro next tbl
    obtain ⟨ev, ms⟩ := em
    obtain ⟨bm1, bm2, bm3⟩ := buildMatchers_spec ms next tbl
    obtain ⟨ih1, ih2, ih3⟩ := ih (buildMatchers next tbl ms).1
      (buildMatchers next tbl ms).2.1
    rw [buildEvents_cons]
    refine ⟨?_, ?_, ?_⟩
    · dsimp only
      rw [ih1, bm1, cfgHooksCount]
      omega
    · dsimp only
      rw [ih2, bm2, bm1, List.append_assoc, cfgHooksCount, idsFrom_add]
    · dsimp only
      rw [ih3, bm3, List.append_assoc, cfgCallbacks]

end AgentSDK.Hooks

namespace AgentSDK.Hooks

open AgentSDK

theorem assoc_unique_of_nodup_keys {κ : Type} :
    ∀ (tbl : List (String × κ)), (tbl.map Prod.fst).Nodup →
      ∀ (id : String) (cb cb' : κ), (id, cb) ∈ tbl → (id, cb') ∈ tbl → cb = cb' := by
  intro tbl
  induction tbl with
  | nil =>
    intro _ id cb cb' h
    exact absurd h (List.not_mem_nil _)
  | cons e rest ih =>
    intro hnd id cb cb' h1 h2
    rw [List.map_cons] at hnd
    obtain ⟨hhead, htail⟩ := List.nodup_cons.mp hnd
    rcases List.mem_cons.mp h1 with h1 | h1 <;>
      rcases List.mem_cons.mp h2 with h2 | h2
    · have h3 : (id, cb) = (id, cb') := h1.trans h2.symm
      exact ((Prod.mk.injEq _ _ _ _).mp h3).2
    · exfalso
      apply hhead
      have h3 : id ∈ List.map Prod.fst rest := List.mem_map_of_mem Prod.fst h2
      rw [← h1]
      exact h3
    · exfalso
      apply hhead
      have h3 : id ∈ List.map Prod.fst rest := List.mem_map_of_mem Prod.fst h1
      rw [← h2]
      exact h3
    · exact ih htail id cb cb' h1 h2

theorem handleHookCallback_unknown {κ : Type} (tbl : List (String × κ))
    (request : GoObj)
    (hmiss : Protocol.lookupKey tbl (getString request "callback_id") = none) :
    handleHookCallback tbl request =
      .error ("no hook callback found for ID: " ++ getString request "callback_id") := by
  simp only [handleHookCallback]
  rw [hmiss]

theorem handleHookCallback_known {κ : Type} (tbl : List (String × κ))
    (request : GoObj) (cb : κ) (hi : HookInput)
    (hfind : Protocol.lookupKey tbl (getString request "callback_id") = some cb)
    (hparse : parseHookInput (lookupField request "input") = .ok hi) :
    handleHookCallback tbl request =
      .ok { callback := cb, input := hi,
            toolUseID := asPtrString? (lookupField request "tool_use_id") } := by
  simp only [handleHookCallback]
  rw [hfind, hparse]

/-- C8: hook registration assigns the callbacks of a configuration the ids
`hook_0, hook_1, ...` in registration order — pairwise distinct within the
session — and the lookup table maps these ids one-to-one onto the
user-supplied callbacks; resolving an unregistered id in a `hook_callback`
request yields an error response for that single request, while every
registered id still resolves to its own callback exactly as before. -/
theorem C8_callback_ids_unique_and_isolated {κ : Type}
    (cfg : List (HookEvent × List (HookMatcher κ))) (request : GoObj) :
    ((buildHooks cfg).2.1).map Prod.fst = idsFrom 0 (cfgHooksCount cfg) ∧
      (((buildHooks cfg).2.1).map Prod.fst).Nodup ∧
      ((buildHooks cfg).2.1).map Prod.snd = cfgCallbacks cfg ∧
      (∀ (id : String) (cb cb' : κ), (id, cb) ∈ (buildHooks cfg).2.1 →
        (id, cb') ∈ (buildHooks cfg).2.1 → cb = cb') ∧
      (Protocol.lookupKey (buildHooks cfg).2.1 (getString request "callback_id") =
          none →
        handleHookCallback (buildHooks cfg).2.1 request =
          .error ("no hook callback found for ID: " ++
            getString request "callback_id")) ∧
      (∀ (req' : GoObj) (cb : κ) (hi : HookInput),
        Protocol.lookupKey (buildHooks cfg).2.1 (getString req' "callback_id") =
            some cb →
          parseHookInput (lookupField req' "input") = .ok hi →
          handleHookCallback (buildHooks cfg).2.1 req' =
            .ok { callback := cb, input := hi,
                  toolUseID := asPtrString? (lookupField req' "tool_use_id") }) := by
  obtain ⟨be1, be2, be3⟩ := buildEvents_spec cfg 0 []
  have hkeys : ((buildHooks cfg).2.1).map Prod.fst = idsFrom 0 (cfgHooksCount cfg) := by
    rw [buildHooks, be2]
    rfl
  have hnd : (((buildHooks cfg).2.1).map Prod.fst).Nodup := by
    rw [hkeys]
    exact idsFrom_nodup _ 0
  refine ⟨hkeys, hnd, ?_, ?_, ?_, ?_⟩
  · rw [buildHooks, be3]
    rfl
  · exact assoc_unique_of_nodup_keys _ hnd
  · exact handleHookCallback_unknown _ request
  · intro req' cb hi hfind hparse
    exact handleHookCallback_known _ req' cb hi hfind hparse

/-- The concrete hook configuration of the C8 witness: two events, three
callbacks (represented by opaque tokens). -/
def cfgW8 : List (HookEvent × List (HookMatcher Nat)) :=
  [("PreToolUse", [{ matcher := some "Bash", hooks := [10, 20], timeout := none }]),
   ("Stop", [{ matcher := none, hooks := [30], timeout := none }])]

/-- A `hook_callback` request naming an unregistered callback id, for the C8
witness. -/
def unknownReqW8 : GoObj := [("callback_id", GoVal.str "hook_9")]

/-- A `hook_callback` request naming a registered callback id with a valid
`PreToolUse` input, for the C8 witness. -/
def knownReqW8 : GoObj :=
  [("callback_id", GoVal.str "hook_0"),
   ("input", GoVal.obj
     [("hook_event_name", GoVal.str "PreToolUse"),
      ("tool_name", GoVal.str "Bash")])]

/-- Witness for C8 at the concrete configuration: distinct ids, a 1:1 table,
an error for the unknown id, and unaffected resolution of a registered id. -/
theorem C8_witness :
    ((buildHooks cfgW8).2.1).map Prod.fst = idsFrom 0 (cfgHooksCount cfgW8) ∧
      (((buildHooks cfgW8).2.1).map Prod.fst).Nodup ∧
      ((buildHooks cfgW8).2.1).map Prod.snd = cfgCallbacks cfgW8 ∧
      (∀ (id : String) (cb cb' : Nat), (id, cb) ∈ (buildHooks cfgW8).2.1 →
        (id, cb') ∈ (buildHooks cfgW8).2.1 → cb = cb') ∧
      handleHookCallback (buildHooks cfgW8).2.1 unknownReqW8 =
        .error ("no hook callback found for ID: " ++
          getString unknownReqW8 "callback_id") ∧
      handleHookCallback (buildHooks cfgW8).2.1 knownReqW8 =
        .ok { callback := 10,
              input := HookInput.preToolUse
                { sessionID := "", transcriptPath := "", cwd := "",
                  permissionMode := none } "Bash" none,
              toolUseID := asPtrString? (lookupField knownReqW8 "tool_use_id") } := by
  obtain ⟨h1, h2, h3, h4, h5, h6⟩ :=
    C8_callback_ids_unique_and_isolated cfgW8 unknownReqW8
  exact ⟨h1, h2, h3, h4, h5 rfl, h6 knownReqW8 10
    (HookInput.preToolUse
      { sessionID := "", transcriptPath := "", cwd := "",
        permissionMode := none } "Bash" none) rfl rfl⟩

/-- C10: in `handleHookCallback` the tool-use id is extracted with the type
assertion `request["tool_use_id"].(*string)`, which always fails on a value
decoded from JSON — so even when the wire request carries a `tool_use_id`
string, the extraction yields nil and the invoked hook callback receives a
nil tool-use id. -/
theorem C10_tool_use_id_always_nil {κ : Type} (tbl : List (String × κ))
    (request : GoObj) (s : String)
    (hwire : lookupField request "tool_use_id" = some (GoVal.str s)) :
    asPtrString? (lookupField request "tool_use_id") = none ∧
      ∀ inv : HookInvocation κ, handleHookCallback tbl request = .ok inv →
        inv.toolUseID = none := by
  constructor
  · rw [hwire]
    rfl
  · intro inv
    simp only [handleHookCallback]
    rw [hwire]
    split
    · intro hinv
      exact absurd hinv (by simp)
    · split
      · intro hinv
        exact absurd hinv (by simp)
      · intro hinv
        injection hinv with h2
        rw [← h2]
        rfl

/-- Witness for C10: a registered callback invoked by a request that carries
a `tool_use_id` string on the wire. -/
theorem C10_witness :
    asPtrString? (lookupField
        [("callback_id", GoVal.str "hook_0"),
         ("tool_use_id", GoVal.str "toolu_42"),
         ("input", GoVal.obj
           [("hook_event_name", GoVal.str "PreToolUse"),
            ("tool_name", GoVal.str "Bash")])] "tool_use_id") = none ∧
      ∀ inv : HookInvocation Nat,
        handleHookCallback [("hook_0", (10 : Nat))]
            [("callback_id", GoVal.str "hook_0"),
             ("tool_use_id", GoVal.str "toolu_42"),
             ("input", GoVal.obj
               [("hook_event_name", GoVal.str "PreToolUse"),
                ("tool_name", GoVal.str "Bash")])] = .ok inv →
          inv.toolUseID = none :=
  C10_tool_use_id_always_nil [("hook_0", (10 : Nat))]
    [("callback_id", GoVal.str "hook_0"),
     ("tool_use_id", GoVal.str "toolu_42"),
     ("input", GoVal.obj
       [("hook_event_name", GoVal.str "PreToolUse"),
        ("tool_name", GoVal.str "Bash")])] "toolu_42" rfl

end AgentSDK.Hooks
